import Mathlib

/-!
Monte-Carlo drug simulation: a shallow embedding of the two cellular automata.

Two C programs are embedded here:

* `simulation_omp.c` (namespace `Omp`): the discrete-threshold rule on a grid with a fixed
  one-cell border ring;
* `src/simulation.c` (namespace `Sim`): the continuous-pressure rule on a toroidal grid.

Conventions of the embedding.

* A C `int` is an `Int`.  The arithmetic of the programs stays below `2 * ROWS + 1`,
  `2 * COLS + 1`, `ROWS * COLS` and `200` in absolute value, so it does not overflow as long as
  these fit in an `int`.
* A grid `State grid[ROWS][COLS]` is a function from a row and a column to a `State`; a write is a
  pointwise update (`setCell`).  Only the cells with `0 ≤ r < ROWS` and `0 ≤ c < COLS` belong to
  the array; the theorems speak about those.
* A counted `for` loop is a left fold over the values of its loop variable (`forRange`).  The
  loops under `omp parallel for` are run in index order: their iterations write distinct cells and
  read only the other buffer.
* `float` arithmetic has two readings.  The exact reading (`Sim.checker` and what it uses) takes
  every `float` operation as the exact operation over `ℚ`.  The binary32 reading
  (`Sim.checker32` and what it uses) rounds the result of every `float` operation to the nearest
  binary32 value, ties to even (`f32`), the value of a finite `float` being a rational number;
  this is the arithmetic of a platform that evaluates `float` expressions in `float`.  No value
  of the program is infinite or a NaN: the divisors are positive.
* The C library generator is a sequence of non-negative draws together with the number of draws
  consumed so far (`Rng`); `srand` is a function from the seed to such a sequence, and `RAND_MAX`
  is a parameter.
-/

/-- The `State` enum shared by both programs. -/
inductive State where
  | NORMAL
  | ADDICT
  | CONVERTER
  | RECOVERER
  deriving DecidableEq, Repr

/-- A grid `State grid[ROWS][COLS]`, read at a row and a column. -/
abbrev Grid := Int → Int → State

/-- The assignment `grid[r][c] = v`. -/
def setCell (grid : Grid) (r c : Int) (v : State) : Grid :=
  fun r' c' => if r' = r ∧ c' = c then v else grid r' c'

/-- The loop `for (int k = lo; k < hi; k++) body(k)`, run on the state `s`. -/
def forRange {σ : Type} (lo hi : Int) (body : Int → σ → σ) (s : σ) : σ :=
  (List.range (hi - lo).toNat).foldl (fun acc (k : Nat) => body (lo + (k : Int)) acc) s

/-- The state of the C library generator: the sequence of values that successive calls of
`rand()` return, and the number of calls made so far. -/
structure Rng where
  seq : Nat → Nat
  pos : Nat

/-- One call of `rand()`: the value returned and the generator afterwards. -/
def rand (g : Rng) : Int × Rng :=
  ((g.seq g.pos : Nat), { g with pos := g.pos + 1 })

/-- The tallies printed by `printStats`. -/
structure Stats where
  normal : Int
  addict : Int
  converter : Int
  recoverer : Int
  deriving DecidableEq, Repr

/-- The body of the `switch` of `printStats`: count one cell. -/
def tally (st : State) (t : Stats) : Stats :=
  match st with
  | .NORMAL => { t with normal := t.normal + 1 }
  | .ADDICT => { t with addict := t.addict + 1 }
  | .CONVERTER => { t with converter := t.converter + 1 }
  | .RECOVERER => { t with recoverer := t.recoverer + 1 }

/-- The sum of the four tallies. -/
def Stats.total (t : Stats) : Int :=
  t.normal + t.addict + t.converter + t.recoverer

namespace Omp

/-- The three neighbour counters of `checker`. -/
structure Counts where
  addict_count : Int
  converter_count : Int
  recoverer_count : Int
  deriving DecidableEq, Repr

/-- The body of the two nested neighbour loops of `checker` (lines 120-135). -/
def countNeighbor (grid : Grid) (r c i j : Int) (k : Counts) : Counts :=
  if !(i == 0 && j == 0) then
    let nr := r + i
    let nc := c + j
    match grid nr nc with
    | .ADDICT => { k with addict_count := k.addict_count + 1 }
    | .CONVERTER => { k with converter_count := k.converter_count + 1 }
    | .RECOVERER => { k with recoverer_count := k.recoverer_count + 1 }
    | .NORMAL => k
  else k

/-- The neighbour loops of `checker` (lines 114-137). -/
def neighborCounts (grid : Grid) (r c : Int) : Counts :=
  forRange (-1) 2 (fun i => forRange (-1) 2 (fun j => countNeighbor grid r c i j)) ⟨0, 0, 0⟩

/-- The function `checker` of `simulation_omp.c`. -/
def checker (ROWS COLS : Int) (grid : Grid) (r c : Int) : State :=
  if r == 0 || r == ROWS - 1 || c == 0 || c == COLS - 1 then .NORMAL
  else
    let current := grid r c
    if current == .CONVERTER || current == .RECOVERER then current
    else
      let k := neighborCounts grid r c
      let probability := k.addict_count * 10 + k.converter_count * 25 - k.recoverer_count * 20
      if current == .NORMAL then
        if probability > 50 then .ADDICT else .NORMAL
      else
        if probability ≤ 55 then .NORMAL else .ADDICT

/-- The 8 Moore neighbours of the cell `(r, c)`. -/
def mooreNeighbours (r c : Int) : List (Int × Int) :=
  [(r - 1, c - 1), (r - 1, c), (r - 1, c + 1), (r, c - 1), (r, c + 1),
   (r + 1, c - 1), (r + 1, c), (r + 1, c + 1)]

/-- The number of cells in state `st` among the 8 Moore neighbours of `(r, c)`. -/
def neighboursIn (grid : Grid) (r c : Int) (st : State) : Nat :=
  (mooreNeighbours r c).countP (fun p => grid p.1 p.2 = st)

/-- The score of the discrete rule, as the specification words it. -/
def score (grid : Grid) (r c : Int) : Int :=
  10 * (neighboursIn grid r c .ADDICT : Int) + 25 * (neighboursIn grid r c .CONVERTER : Int)
    - 20 * (neighboursIn grid r c .RECOVERER : Int)

/-- The body of the two nested loops of `fillGrid` (lines 34-56). -/
def fillCell (ROWS COLS r c : Int) (s : Grid × Rng) : Grid × Rng :=
  if r == 0 || r == ROWS - 1 || c == 0 || c == COLS - 1 then
    (setCell s.1 r c .NORMAL, s.2)
  else
    let rand_num := Int.tmod (rand s.2).1 100
    if rand_num < 50 then (setCell s.1 r c .NORMAL, (rand s.2).2)
    else if rand_num < 70 then (setCell s.1 r c .ADDICT, (rand s.2).2)
    else if rand_num < 85 then (setCell s.1 r c .CONVERTER, (rand s.2).2)
    else (setCell s.1 r c .RECOVERER, (rand s.2).2)

/-- The function `fillGrid` of `simulation_omp.c`; `srand seed` is the sequence of draws that
follows the call `srand(seed)`.  The result is the grid and the generator afterwards. -/
def fillGrid (srand : Int → Nat → Nat) (ROWS COLS : Int) (grid : Grid) (seed : Int) :
    Grid × Rng :=
  forRange 0 ROWS (fun r => forRange 0 COLS (fun c => fillCell ROWS COLS r c))
    (grid, ⟨srand seed, 0⟩)

/-- The tallies computed by `printStats` of `simulation_omp.c` (lines 71-93). -/
def printStats (ROWS COLS : Int) (grid : Grid) : Stats :=
  forRange 1 (ROWS - 1) (fun r => forRange 1 (COLS - 1) (fun c => tally (grid r c)))
    ⟨0, 0, 0, 0⟩

end Omp

/-- What a driver hands to its I/O glue: a generation header, a call of `printGrid` on a grid, or
the tallies that a call of `printStats` prints. -/
inductive Event where
  | header (i : Int)
  | printGrid (grid : Grid)
  | printStats (t : Stats)

/-- The state of a driver: the two buffers, the generator, what has been printed so far, and a
ghost counter of the invocations of `checker`. -/
structure Machine where
  oldGrid : Grid
  newGrid : Grid
  rng : Rng
  out : List Event
  calls : Nat

/-- The body of the copy-back loops that end an iteration of the generation loop of either
driver: `oldGrid[r][c] = newGrid[r][c]`. -/
def copyCell (r c : Int) (m : Machine) : Machine :=
  { m with oldGrid := setCell m.oldGrid r c (m.newGrid r c) }

/-- The copy-back loops that end an iteration of the generation loop of either driver. -/
def copyBack (ROWS COLS : Int) (m : Machine) : Machine :=
  forRange 0 ROWS (fun r => forRange 0 COLS (fun c => copyCell r c)) m

namespace Omp

/-- The body of the first pair of loops of the generation loop (line 191). -/
def computeCell (ROWS COLS r c : Int) (m : Machine) : Machine :=
  { m with newGrid := setCell m.newGrid r c (checker ROWS COLS m.oldGrid r c),
           calls := m.calls + 1 }

/-- The first pair of loops of the generation loop (lines 189-193). -/
def compute (ROWS COLS : Int) (m : Machine) : Machine :=
  forRange 0 ROWS (fun r => forRange 0 COLS (fun c => computeCell ROWS COLS r c)) m

/-- One iteration of the generation loop of `main` (lines 185-205). -/
def generation (ROWS COLS : Int) (i : Int) (m : Machine) : Machine :=
  let m1 := { m with out := m.out ++ [Event.header i] }
  let m2 := compute ROWS COLS m1
  let m3 := { m2 with out := m2.out ++
    [Event.printGrid m2.newGrid, Event.printStats (printStats ROWS COLS m2.newGrid)] }
  copyBack ROWS COLS m3

/-- The state of the driver when it enters the generation loop (lines 163-182); `oldGrid` and
`newGrid` are the contents of the two uninitialised arrays. -/
def start (srand : Int → Nat → Nat) (ROWS COLS seed : Int) (oldGrid newGrid : Grid) : Machine :=
  let f := fillGrid srand ROWS COLS oldGrid seed
  { oldGrid := f.1, newGrid := newGrid, rng := f.2,
    out := [Event.header 1, Event.printGrid f.1, Event.printStats (printStats ROWS COLS f.1)],
    calls := 0 }

/-- The function `main` of `simulation_omp.c`, for the command line `rows cols` and the two
numbers `seed` and `generations` read from the input. -/
def main (srand : Int → Nat → Nat) (rows cols seed generations : Int) (oldGrid newGrid : Grid) :
    Machine :=
  let ROWS := rows + 2
  let COLS := cols + 2
  forRange 2 (generations + 1) (generation ROWS COLS)
    (start srand ROWS COLS seed oldGrid newGrid)

end Omp

namespace Sim

/-- The function `getInfluence`. -/
def getInfluence (state : State) : ℚ :=
  match state with
  | .NORMAL => 1.0
  | .ADDICT => 1.0
  | .CONVERTER => 3.0
  | .RECOVERER => 3.0

/-- The function `isAddictType`. -/
def isAddictType (state : State) : Bool :=
  state == .ADDICT || state == .CONVERTER

/-- The function `isNormalType`. -/
def isNormalType (state : State) : Bool :=
  state == .NORMAL || state == .RECOVERER

/-- The body of the two nested loops of `fillGrid` (lines 59-71). -/
def fillCell (r c : Int) (s : Grid × Rng) : Grid × Rng :=
  let rand_num := Int.tmod (rand s.2).1 100
  if rand_num < 70 then (setCell s.1 r c .NORMAL, (rand s.2).2)
  else if rand_num < 90 then (setCell s.1 r c .ADDICT, (rand s.2).2)
  else if rand_num < 95 then (setCell s.1 r c .RECOVERER, (rand s.2).2)
  else (setCell s.1 r c .CONVERTER, (rand s.2).2)

/-- The function `fillGrid` of `src/simulation.c`. -/
def fillGrid (srand : Int → Nat → Nat) (ROWS COLS : Int) (grid : Grid) (seed : Int) :
    Grid × Rng :=
  forRange 0 ROWS (fun r => forRange 0 COLS (fun c => fillCell r c)) (grid, ⟨srand seed, 0⟩)

/-- The tallies computed by `printStats` of `src/simulation.c` (lines 86-109); the percentages it
also prints are quotients of these tallies by `ROWS * COLS`. -/
def printStats (ROWS COLS : Int) (grid : Grid) : Stats :=
  forRange 0 ROWS (fun r => forRange 0 COLS (fun c => tally (grid r c))) ⟨0, 0, 0, 0⟩

/-- The two neighbour loops of `checker` (lines 124-140): `visit` is what the loop body does with
the wrapped coordinates `nr`, `nc` of a neighbour.  `%` of C truncates, hence `Int.tmod`. -/
def eachNeighbor {σ : Type} (ROWS COLS r c : Int) (visit : Int → Int → σ → σ) (s : σ) : σ :=
  forRange (-1) 2 (fun i => forRange (-1) 2 (fun j acc =>
    if !(i == 0 && j == 0) then
      let nr := Int.tmod (r + i + ROWS) ROWS
      let nc := Int.tmod (c + j + COLS) COLS
      visit nr nc acc
    else acc)) s

/-- The two accumulators of `checker`. -/
structure Pressure where
  addict_pressure : ℚ
  normal_pressure : ℚ

/-- What the neighbour loops of `checker` do with the neighbour at `(nr, nc)` (lines 130-137). -/
def addPressure (grid : Grid) (nr nc : Int) (p : Pressure) : Pressure :=
  let neighbor := grid nr nc
  let influence := getInfluence neighbor
  if isAddictType neighbor then { p with addict_pressure := p.addict_pressure + influence }
  else { p with normal_pressure := p.normal_pressure + influence }

/-- The pressures accumulated by `checker` (lines 121-140). -/
def pressures (ROWS COLS : Int) (grid : Grid) (r c : Int) : Pressure :=
  eachNeighbor ROWS COLS r c (addPressure grid) ⟨0.0, 0.0⟩

/-- The grid indices that the neighbour loops of `checker` read, in the order of the reads. -/
def neighborReads (ROWS COLS r c : Int) : List (Int × Int) :=
  eachNeighbor ROWS COLS r c (fun nr nc l => l ++ [(nr, nc)]) []

/-- The value `total_pressure` of `checker` (lines 143-144). -/
def totalPressure (ROWS COLS : Int) (grid : Grid) (r c : Int) : ℚ :=
  let epsilon : ℚ := 0.0001
  (pressures ROWS COLS grid r c).addict_pressure + (pressures ROWS COLS grid r c).normal_pressure
    + epsilon

/-- The value `transition_prob` of `checker` (lines 145-151). -/
def transitionProb (ROWS COLS : Int) (grid : Grid) (r c : Int) : ℚ :=
  if isAddictType (grid r c) then
    (pressures ROWS COLS grid r c).normal_pressure / totalPressure ROWS COLS grid r c
  else
    (pressures ROWS COLS grid r c).addict_pressure / totalPressure ROWS COLS grid r c

/-- The draws of `checker` and its result (lines 153-174), for the cell state `current` and the
probability `transition_prob`, in the exact reading: `(float)rand() / RAND_MAX` is the exact
quotient; `transition32` is the binary32 reading. -/
def transition (RAND_MAX : Int) (current : State) (transition_prob : ℚ) (g : Rng) :
    State × Rng :=
  let rand_val : ℚ := ((rand g).1 : ℚ) / (RAND_MAX : ℚ)
  if rand_val < transition_prob then
    let promotion_rate : ℚ := 0.08
    let promotion_roll : ℚ := ((rand (rand g).2).1 : ℚ) / (RAND_MAX : ℚ)
    if isAddictType current then
      if promotion_roll < promotion_rate then (.RECOVERER, (rand (rand g).2).2)
      else (.NORMAL, (rand (rand g).2).2)
    else
      if promotion_roll < promotion_rate then (.CONVERTER, (rand (rand g).2).2)
      else (.ADDICT, (rand (rand g).2).2)
  else (current, (rand g).2)

/-- The function `checker` of `src/simulation.c`: the next state of the cell and the generator
after the draws. -/
def checker (RAND_MAX ROWS COLS : Int) (grid : Grid) (r c : Int) (g : Rng) : State × Rng :=
  transition RAND_MAX (grid r c) (transitionProb ROWS COLS grid r c) g

/-- The body of the first pair of loops of the generation loop (line 219). -/
def computeCell (RAND_MAX ROWS COLS r c : Int) (m : Machine) : Machine :=
  { m with newGrid := setCell m.newGrid r c (checker RAND_MAX ROWS COLS m.oldGrid r c m.rng).1,
           rng := (checker RAND_MAX ROWS COLS m.oldGrid r c m.rng).2,
           calls := m.calls + 1 }

/-- The first pair of loops of the generation loop (lines 217-221). -/
def compute (RAND_MAX ROWS COLS : Int) (m : Machine) : Machine :=
  forRange 0 ROWS (fun r => forRange 0 COLS (fun c => computeCell RAND_MAX ROWS COLS r c)) m

/-- One iteration of the generation loop of `main` (lines 217-232). -/
def generation (RAND_MAX ROWS COLS : Int) (_i : Int) (m : Machine) : Machine :=
  let m2 := compute RAND_MAX ROWS COLS m
  let m3 := { m2 with out := m2.out ++ [Event.printGrid m2.newGrid] }
  copyBack ROWS COLS m3

/-- The state of the driver when it enters the generation loop (lines 193-213). -/
def start (srand : Int → Nat → Nat) (ROWS COLS seed : Int) (oldGrid newGrid : Grid) : Machine :=
  let f := fillGrid srand ROWS COLS oldGrid seed
  { oldGrid := f.1, newGrid := newGrid, rng := f.2, out := [Event.printGrid f.1], calls := 0 }

/-- The function `main` of `src/simulation.c`, for the command line `rows cols` and the numbers
`seed` and `generations` read from the input (the frame delay only sleeps). -/
def main (srand : Int → Nat → Nat) (RAND_MAX rows cols seed generations : Int)
    (oldGrid newGrid : Grid) : Machine :=
  let ROWS := rows
  let COLS := cols
  let m := forRange 2 (generations + 1) (generation RAND_MAX ROWS COLS)
    (start srand ROWS COLS seed oldGrid newGrid)
  { m with out := m.out ++ [Event.printStats (printStats ROWS COLS m.oldGrid)] }

/-- The 8 offsets `(dr, dc)` of `{-1, 0, 1}²` other than `(0, 0)`, row by row. -/
def offsets : List (Int × Int) :=
  [(-1, -1), (-1, 0), (-1, 1), (0, -1), (0, 1), (1, -1), (1, 0), (1, 1)]

/-- The toroidal neighbours of `(r, c)` as the specification words them: one for each offset, at
row `(r + dr) mod ROWS` and column `(c + dc) mod COLS`, the modulo being non-negative. -/
def torusNeighbours (ROWS COLS r c : Int) : List (Int × Int) :=
  offsets.map (fun d => ((r + d.1) % ROWS, (c + d.2) % COLS))

/-- The influence of a neighbour as the specification words it. -/
def influence (st : State) : ℚ :=
  if st = .NORMAL ∨ st = .ADDICT then 1 else 3

/-- The specification's `affectedPressure`: the sum of the influences of the samples that are
`Addict` or `Converter`. -/
def affectedPressure (samples : List State) : ℚ :=
  ((samples.filter (fun st => st = .ADDICT ∨ st = .CONVERTER)).map influence).sum

/-- The specification's `unaffectedPressure`: the sum of the influences of the samples that are
`Normal` or `Recoverer`. -/
def unaffectedPressure (samples : List State) : ℚ :=
  ((samples.filter (fun st => st = .NORMAL ∨ st = .RECOVERER)).map influence).sum

/-- The 8 neighbour samples of the cell `(r, c)` as the specification words them: the states of
its toroidal neighbours. -/
def samples (ROWS COLS : Int) (grid : Grid) (r c : Int) : List State :=
  (torusNeighbours ROWS COLS r c).map (fun q => grid q.1 q.2)

/-- The cells of row `r` in the columns before `c`, by increasing column. -/
def rowBefore (r c : Int) : List (Int × Int) :=
  (List.range c.toNat).map (fun (k : Nat) => (r, (k : Int)))

/-- The cells that come before `(r, c)` in row-major order, in a grid of `COLS` columns. -/
def cellsBefore (COLS r c : Int) : List (Int × Int) :=
  ((List.range r.toNat).map (fun (k : Nat) => rowBefore (k : Int) COLS)).flatten ++ rowBefore r c

/-- The generator after `checker` has run on the cells of the list `cells` in turn, starting
from the generator `g`, all on the same grid. -/
def rngAfter (RAND_MAX ROWS COLS : Int) (grid : Grid) (g : Rng) (cells : List (Int × Int)) :
    Rng :=
  cells.foldl (fun g' p => (checker RAND_MAX ROWS COLS grid p.1 p.2 g').2) g

end Sim

/-! ## Further definitions: initial states, draws and reads -/

namespace Omp

/-- The bucket chain of `fillGrid` of `simulation_omp.c` (lines 44-55): the initial state of an
interior cell for the value `rand_num = rand() % 100`. -/
def initialState (rand_num : Int) : State :=
  if rand_num < 50 then .NORMAL
  else if rand_num < 70 then .ADDICT
  else if rand_num < 85 then .CONVERTER
  else .RECOVERER

/-- The test of lines 34 and 103: the position `(r, c)` is on the border ring. -/
def onBorder (ROWS COLS r c : Int) : Bool :=
  r == 0 || r == ROWS - 1 || c == 0 || c == COLS - 1

/-- The number of interior cells that come before `(r, c)` in row-major order: the number of
draws that `fillGrid` has consumed when it reaches `(r, c)`. -/
def drawsBefore (ROWS COLS r c : Int) : Nat :=
  (Sim.cellsBefore COLS r c).countP (fun p => !onBorder ROWS COLS p.1 p.2)

/-- The grid indices that the neighbour loops of `checker` read (lines 118-137), in the order
of the reads. -/
def neighborReads (r c : Int) : List (Int × Int) :=
  forRange (-1) 2 (fun i => forRange (-1) 2 (fun j l =>
    if !(i == 0 && j == 0) then
      let nr := r + i
      let nc := c + j
      l ++ [(nr, nc)]
    else l)) []

/-- The grid indices that `checker` of `simulation_omp.c` reads on the grid `grid`, in the order
of the reads: none at a border position, the cell itself otherwise, and then its neighbours
unless the cell is locked. -/
def checkerReads (ROWS COLS : Int) (grid : Grid) (r c : Int) : List (Int × Int) :=
  if r == 0 || r == ROWS - 1 || c == 0 || c == COLS - 1 then []
  else
    let current := grid r c
    if current == .CONVERTER || current == .RECOVERER then [(r, c)]
    else (r, c) :: neighborReads r c

end Omp

namespace Sim

/-- The bucket chain of `fillGrid` of `src/simulation.c` (lines 60-71): the initial state of a
cell for the value `rand_num = rand() % 100`. -/
def initialState (rand_num : Int) : State :=
  if rand_num < 70 then .NORMAL
  else if rand_num < 90 then .ADDICT
  else if rand_num < 95 then .RECOVERER
  else .CONVERTER

end Sim

/-! ## The binary32 reading of the continuous rule -/

/-- The integer nearest to `v`, the even one of the two when `v` is half-way between them. -/
def roundEven (v : ℚ) : Int :=
  if v - (Int.floor v : ℚ) < 1 / 2 then Int.floor v
  else if 1 / 2 < v - (Int.floor v : ℚ) then Int.floor v + 1
  else if Int.floor v % 2 = 0 then Int.floor v else Int.floor v + 1

/-- The value `q` rounded to the nearest number of a binary floating-point format with `t`
fraction bits and least normal exponent `emin`, ties to even: `q` is rounded to a multiple of
`2 ^ (e - t)`, where `e` is the exponent of the binade of `q`, or `emin` in the subnormal range.
There is no overflow to infinity: the values of the program are far below the largest finite
number of either format. -/
def roundBinary (t : Nat) (emin : Int) (q : ℚ) : ℚ :=
  (roundEven (q / (2 : ℚ) ^ (max (Int.log 2 |q|) emin - (t : Int))) : ℚ)
    * (2 : ℚ) ^ (max (Int.log 2 |q|) emin - (t : Int))

/-- Rounding to binary32, the format of `float`: 23 fraction bits, least normal exponent -126. -/
def f32 (q : ℚ) : ℚ := roundBinary 23 (-126) q

/-- Rounding to binary64, the format of `double` and of the literals `0.0001` and `0.08`:
52 fraction bits, least normal exponent -1022. -/
def f64 (q : ℚ) : ℚ := roundBinary 52 (-1022) q

namespace Sim

/-- The expression `(float)rand() / RAND_MAX` of `checker` (lines 153 and 157) for the value `x`
returned by `rand()`: `x` is converted to `float`, so is `RAND_MAX`, and the quotient is a
`float`. -/
def draw32 (RAND_MAX x : Int) : ℚ :=
  f32 (f32 (x : ℚ) / f32 (RAND_MAX : ℚ))

/-- What the neighbour loops of `checker` do with the neighbour at `(nr, nc)` (lines 130-137),
in binary32. -/
def addPressure32 (grid : Grid) (nr nc : Int) (p : Pressure) : Pressure :=
  let neighbor := grid nr nc
  let influence := f32 (getInfluence neighbor)
  if isAddictType neighbor then { p with addict_pressure := f32 (p.addict_pressure + influence) }
  else { p with normal_pressure := f32 (p.normal_pressure + influence) }

/-- The pressures accumulated by `checker` (lines 121-140), in binary32. -/
def pressures32 (ROWS COLS : Int) (grid : Grid) (r c : Int) : Pressure :=
  eachNeighbor ROWS COLS r c (addPressure32 grid) ⟨0.0, 0.0⟩

/-- The value `total_pressure` of `checker` (lines 143-144), in binary32. -/
def totalPressure32 (ROWS COLS : Int) (grid : Grid) (r c : Int) : ℚ :=
  let epsilon : ℚ := f32 (f64 0.0001)
  f32 (f32 ((pressures32 ROWS COLS grid r c).addict_pressure
    + (pressures32 ROWS COLS grid r c).normal_pressure) + epsilon)

/-- The value `transition_prob` of `checker` (lines 145-151), in binary32. -/
def transitionProb32 (ROWS COLS : Int) (grid : Grid) (r c : Int) : ℚ :=
  if isAddictType (grid r c) then
    f32 ((pressures32 ROWS COLS grid r c).normal_pressure / totalPressure32 ROWS COLS grid r c)
  else
    f32 ((pressures32 ROWS COLS grid r c).addict_pressure / totalPressure32 ROWS COLS grid r c)

/-- The draws of `checker` and its result (lines 153-174) in binary32, for the cell state
`current` and the value `transition_prob`. -/
def transition32 (RAND_MAX : Int) (current : State) (transition_prob : ℚ) (g : Rng) :
    State × Rng :=
  let rand_val : ℚ := draw32 RAND_MAX (rand g).1
  if rand_val < transition_prob then
    let promotion_rate : ℚ := f32 (f64 0.08)
    let promotion_roll : ℚ := draw32 RAND_MAX (rand (rand g).2).1
    if isAddictType current then
      if promotion_roll < promotion_rate then (.RECOVERER, (rand (rand g).2).2)
      else (.NORMAL, (rand (rand g).2).2)
    else
      if promotion_roll < promotion_rate then (.CONVERTER, (rand (rand g).2).2)
      else (.ADDICT, (rand (rand g).2).2)
  else (current, (rand g).2)

/-- The function `checker` of `src/simulation.c` in binary32: the next state of the cell and the
generator after the draws. -/
def checker32 (RAND_MAX ROWS COLS : Int) (grid : Grid) (r c : Int) (g : Rng) : State × Rng :=
  transition32 RAND_MAX (grid r c) (transitionProb32 ROWS COLS grid r c) g

end Sim

/-! ## Sample inputs -/

/-- A sample grid: a `Normal` cell at `(1, 1)` and `Addict` everywhere else. -/
def addictRing : Grid := fun r c => if r = 1 ∧ c = 1 then .NORMAL else .ADDICT

/-- A sample sequence of draws: 0 first, then 171798688. -/
def thresholdDraws : Nat → Nat := fun k => if k = 0 then 0 else 171798688

/-- A sample grid: `Addict` everywhere. -/
def allAddict : Grid := fun _ _ => .ADDICT

/-- A sample grid: `Normal` everywhere. -/
def allNormal : Grid := fun _ _ => .NORMAL

/-- A sample grid: `Converter` everywhere. -/
def allConverter : Grid := fun _ _ => .CONVERTER

/-- A sample grid with the four states: the state of a cell follows the parity of its row and of
its column. -/
def mixedGrid : Grid := fun r c =>
  if r % 2 = 0 then (if c % 2 = 0 then .NORMAL else .ADDICT)
  else (if c % 2 = 0 then .CONVERTER else .RECOVERER)

/-- A sample machine whose current grid is `mixedGrid`. -/
def sampleMachine : Machine :=
  { oldGrid := mixedGrid, newGrid := allNormal, rng := ⟨fun k => 7 * k + 3, 0⟩, out := [],
    calls := 0 }

/-- A sample machine whose current grid is `allNormal`. -/
def normalMachine : Machine :=
  { oldGrid := allNormal, newGrid := mixedGrid, rng := ⟨fun k => 7 * k + 3, 0⟩, out := [],
    calls := 0 }

/-- A sample grid for the dead zone of the discrete rule: around the cell `(1, 1)` there are
3 `Addict` cells (row 0), 1 `Converter` cell and 4 `Normal` cells. -/
def deadZoneGrid : Grid := fun r c =>
  if r = 0 then .ADDICT else if r = 1 ∧ c = 0 then .CONVERTER else .NORMAL

/-- A sample `srand`: a linear congruential sequence started at the seed. -/
def sampleSrand : Int → Nat → Nat := fun seed k => (seed.toNat + 1103515245 * k + 12345) % 32768

/-! ## Loops -/

theorem forRange_neg_one_two {σ : Type} (body : Int → σ → σ) (s : σ) :
    forRange (-1) 2 body s = body 1 (body 0 (body (-1) s)) := by
  simp [forRange, List.range_succ]

theorem forRange_empty {σ : Type} (lo hi : Int) (body : Int → σ → σ) (s : σ) (h : hi ≤ lo) :
    forRange lo hi body s = s := by
  have e : (hi - lo).toNat = 0 := by omega
  simp [forRange, e]

theorem forRange_succ_right {σ : Type} (lo : Int) (n : Nat) (body : Int → σ → σ) (s : σ) :
    forRange lo (lo + ((n + 1 : Nat) : Int)) body s
      = body (lo + (n : Int)) (forRange lo (lo + (n : Int)) body s) := by
  have e1 : (lo + ((n + 1 : Nat) : Int) - lo).toNat = n + 1 := by omega
  have e2 : (lo + (n : Int) - lo).toNat = n := by omega
  simp [forRange, e1, e2, List.range_succ, List.foldl_append]

theorem foldl_range_induction {σ : Type} (f : σ → Nat → σ) (P : Nat → σ → Prop) (n : Nat) (s : σ)
    (h0 : P 0 s) (step : ∀ k t, k < n → P k t → P (k + 1) (f t k)) :
    P n ((List.range n).foldl f s) := by
  induction n with
  | zero => simpa using h0
  | succ n ih =>
    rw [List.range_succ, List.foldl_append]
    simp only [List.foldl_cons, List.foldl_nil]
    exact step n _ (Nat.lt_succ_self n) (ih (fun k t hk => step k t (Nat.lt_succ_of_lt hk)))

/-- The invariant rule of a counted loop. -/
theorem forRange_induction {σ : Type} (lo hi : Int) (body : Int → σ → σ) (P : Int → σ → Prop)
    (s : σ) (hle : lo ≤ hi) (h0 : P lo s)
    (step : ∀ k t, lo ≤ k → k < hi → P k t → P (k + 1) (body k t)) :
    P hi (forRange lo hi body s) := by
  unfold forRange
  have key := foldl_range_induction (fun acc (k : Nat) => body (lo + (k : Int)) acc)
    (fun k t => P (lo + (k : Int)) t) (hi - lo).toNat s (by simpa using h0) (by
      intro k t hk hP
      have e : lo + ((k + 1 : Nat) : Int) = lo + (k : Int) + 1 := by push_cast; ring
      rw [e]
      exact step _ _ (by omega) (by omega) hP)
  have e : lo + ((hi - lo).toNat : Int) = hi := by omega
  simp only [e] at key
  exact key

/-- The invariant rule of two nested counted loops: `P r c` holds when the rows before `r` and the
columns before `c` of row `r` have been processed. -/
theorem forRange2_induction {σ : Type} (r0 r1 c0 c1 : Int) (body : Int → Int → σ → σ)
    (P : Int → Int → σ → Prop) (s : σ) (hr : r0 ≤ r1) (hc : c0 ≤ c1) (h0 : P r0 c0 s)
    (cell : ∀ r c t, r0 ≤ r → r < r1 → c0 ≤ c → c < c1 → P r c t → P r (c + 1) (body r c t))
    (row : ∀ r t, r0 ≤ r → r < r1 → P r c1 t → P (r + 1) c0 t) :
    P r1 c0 (forRange r0 r1 (fun r => forRange c0 c1 (body r)) s) :=
  forRange_induction r0 r1 _ (fun r t => P r c0 t) s hr h0 (fun r t h1 h2 hP =>
    row r _ h1 h2 (forRange_induction c0 c1 _ (fun c u => P r c u) t hc hP
      (fun c u h3 h4 hQ => cell r c u h1 h2 h3 h4 hQ)))

/-- The copy-back loops copy every cell of the array and leave the rest of the state alone. -/
theorem copyBack_spec (ROWS COLS : Int) (m : Machine) (hR : 0 ≤ ROWS) (hC : 0 ≤ COLS) :
    (copyBack ROWS COLS m).newGrid = m.newGrid ∧ (copyBack ROWS COLS m).rng = m.rng ∧
    (copyBack ROWS COLS m).out = m.out ∧ (copyBack ROWS COLS m).calls = m.calls ∧
    ∀ r c, 0 ≤ r → r < ROWS → 0 ≤ c → c < COLS →
      (copyBack ROWS COLS m).oldGrid r c = m.newGrid r c := by
  have key := forRange2_induction 0 ROWS 0 COLS (fun r c => copyCell r c)
    (fun r c t => t.newGrid = m.newGrid ∧ t.rng = m.rng ∧ t.out = m.out ∧ t.calls = m.calls ∧
      ∀ r' c', 0 ≤ r' → 0 ≤ c' → c' < COLS → (r' < r ∨ (r' = r ∧ c' < c)) →
        t.oldGrid r' c' = m.newGrid r' c') m hR hC
    ⟨rfl, rfl, rfl, rfl, fun r' c' h1 h2 _ h4 => by omega⟩
    (by
      rintro r c t _ _ _ _ ⟨h1, h2, h3, h4, h5⟩
      refine ⟨h1, h2, h3, h4, fun r' c' a b d e => ?_⟩
      by_cases hcell : r' = r ∧ c' = c
      · simp [copyCell, setCell, hcell, h1]
      · have : r' < r ∨ (r' = r ∧ c' < c) := by omega
        simpa [copyCell, setCell, hcell] using h5 r' c' a b d this)
    (by
      rintro r t _ _ ⟨h1, h2, h3, h4, h5⟩
      exact ⟨h1, h2, h3, h4, fun r' c' a b d e => h5 r' c' a b d (by omega)⟩)
  obtain ⟨h1, h2, h3, h4, h5⟩ := key
  exact ⟨h1, h2, h3, h4, fun r c a b d e => h5 r c a d e (by omega)⟩

namespace Omp

theorem countNeighbor_eq (grid : Grid) (r c i j : Int) (k : Counts) (h : ¬ (i = 0 ∧ j = 0)) :
    countNeighbor grid r c i j k =
      ⟨k.addict_count + (if grid (r + i) (c + j) = .ADDICT then 1 else 0),
       k.converter_count + (if grid (r + i) (c + j) = .CONVERTER then 1 else 0),
       k.recoverer_count + (if grid (r + i) (c + j) = .RECOVERER then 1 else 0)⟩ := by
  have h' : (!(i == 0 && j == 0)) = true := by
    by_cases hi : i = 0 <;> by_cases hj : j = 0 <;> simp_all
  unfold countNeighbor
  rw [if_pos h']
  cases hg : grid (r + i) (c + j) <;> simp [hg]

theorem probability_eq_score (grid : Grid) (r c : Int) :
    (neighborCounts grid r c).addict_count * 10 + (neighborCounts grid r c).converter_count * 25
      - (neighborCounts grid r c).recoverer_count * 20 = score grid r c := by
  unfold neighborCounts
  simp only [forRange_neg_one_two]
  rw [show countNeighbor grid r c 0 0 = id from by funext k; simp [countNeighbor]]
  simp only [countNeighbor_eq grid r c _ _ _ (by decide : ¬ ((-1 : Int) = 0 ∧ (-1 : Int) = 0)),
    countNeighbor_eq grid r c _ _ _ (by decide : ¬ ((-1 : Int) = 0 ∧ (0 : Int) = 0)),
    countNeighbor_eq grid r c _ _ _ (by decide : ¬ ((-1 : Int) = 0 ∧ (1 : Int) = 0)),
    countNeighbor_eq grid r c _ _ _ (by decide : ¬ ((0 : Int) = 0 ∧ (-1 : Int) = 0)),
    countNeighbor_eq grid r c _ _ _ (by decide : ¬ ((0 : Int) = 0 ∧ (1 : Int) = 0)),
    countNeighbor_eq grid r c _ _ _ (by decide : ¬ ((1 : Int) = 0 ∧ (-1 : Int) = 0)),
    countNeighbor_eq grid r c _ _ _ (by decide : ¬ ((1 : Int) = 0 ∧ (0 : Int) = 0)),
    countNeighbor_eq grid r c _ _ _ (by decide : ¬ ((1 : Int) = 0 ∧ (1 : Int) = 0)), id]
  simp only [score, neighboursIn, mooreNeighbours, List.countP_cons, List.countP_nil,
    Int.sub_eq_add_neg, add_zero, decide_eq_true_eq]
  push_cast
  ring

/-! ## The discrete-threshold program -/

theorem checker_border (ROWS COLS : Int) (grid : Grid) (r c : Int)
    (hb : r = 0 ∨ r = ROWS - 1 ∨ c = 0 ∨ c = COLS - 1) :
    checker ROWS COLS grid r c = .NORMAL := by
  unfold checker
  rw [if_pos]
  simpa [or_assoc] using hb

theorem checker_interior (ROWS COLS : Int) (grid : Grid) (r c : Int)
    (hr : 0 < r ∧ r < ROWS - 1) (hc : 0 < c ∧ c < COLS - 1) :
    checker ROWS COLS grid r c =
      if grid r c = .CONVERTER ∨ grid r c = .RECOVERER then grid r c
      else if grid r c = .NORMAL then (if score grid r c > 50 then .ADDICT else .NORMAL)
      else (if score grid r c ≤ 55 then .NORMAL else .ADDICT) := by
  have hb : ¬ ((r == 0 || r == ROWS - 1 || c == 0 || c == COLS - 1) = true) := by
    simp only [Bool.or_eq_true, beq_iff_eq]
    omega
  unfold checker
  rw [if_neg hb]
  simp only [probability_eq_score, Bool.or_eq_true, beq_iff_eq]

theorem checker_locked (ROWS COLS : Int) (grid : Grid) (r c : Int)
    (hr : 0 < r ∧ r < ROWS - 1) (hc : 0 < c ∧ c < COLS - 1)
    (hl : grid r c = .CONVERTER ∨ grid r c = .RECOVERER) :
    checker ROWS COLS grid r c = grid r c := by
  rw [checker_interior ROWS COLS grid r c hr hc, if_pos hl]

/-- The first pair of loops of a generation writes `checker` of the old grid into every cell of
the new grid, reads nothing else and invokes `checker` once per cell. -/
theorem omp_compute_spec (ROWS COLS : Int) (m : Machine) (hR : 0 ≤ ROWS) (hC : 0 ≤ COLS) :
    (compute ROWS COLS m).oldGrid = m.oldGrid ∧ (compute ROWS COLS m).rng = m.rng ∧
    (compute ROWS COLS m).out = m.out ∧
    ((compute ROWS COLS m).calls : Int) = m.calls + ROWS * COLS ∧
    ∀ r c, 0 ≤ r → r < ROWS → 0 ≤ c → c < COLS →
      (compute ROWS COLS m).newGrid r c = checker ROWS COLS m.oldGrid r c := by
  have key := forRange2_induction 0 ROWS 0 COLS (fun r c => computeCell ROWS COLS r c)
    (fun r c t => t.oldGrid = m.oldGrid ∧ t.rng = m.rng ∧ t.out = m.out ∧
      (t.calls : Int) = m.calls + r * COLS + c ∧
      ∀ r' c', 0 ≤ r' → 0 ≤ c' → c' < COLS → (r' < r ∨ (r' = r ∧ c' < c)) →
        t.newGrid r' c' = checker ROWS COLS m.oldGrid r' c') m hR hC
    ⟨rfl, rfl, rfl, by simp, fun r' c' h1 h2 _ h4 => by omega⟩
    (by
      rintro r c t _ _ _ _ ⟨h1, h2, h3, h4, h5⟩
      refine ⟨h1, h2, h3, ?_, fun r' c' a b d e => ?_⟩
      · simp only [computeCell]
        push_cast
        rw [h4]
        ring
      · by_cases hcell : r' = r ∧ c' = c
        · simp [computeCell, setCell, hcell, h1]
        · have : r' < r ∨ (r' = r ∧ c' < c) := by omega
          simpa [computeCell, setCell, hcell] using h5 r' c' a b d this)
    (by
      rintro r t _ _ ⟨h1, h2, h3, h4, h5⟩
      refine ⟨h1, h2, h3, ?_, fun r' c' a b d e => h5 r' c' a b d (by omega)⟩
      rw [h4]
      ring)
  obtain ⟨h1, h2, h3, h4, h5⟩ := key
  simp only [add_zero] at h4
  exact ⟨h1, h2, h3, h4, fun r c a b d e => h5 r c a d e (by omega)⟩

/-- One iteration of the generation loop: every cell of the current grid becomes `checker` of
the grid as it was before the iteration. -/
theorem omp_generation_oldGrid (ROWS COLS i : Int) (m : Machine) (r c : Int)
    (hr : 0 ≤ r ∧ r < ROWS) (hc : 0 ≤ c ∧ c < COLS) :
    (generation ROWS COLS i m).oldGrid r c = checker ROWS COLS m.oldGrid r c := by
  have hR : 0 ≤ ROWS := by omega
  have hC : 0 ≤ COLS := by omega
  unfold generation
  simp only
  obtain ⟨-, -, -, -, h5⟩ := copyBack_spec ROWS COLS
    { compute ROWS COLS { m with out := m.out ++ [Event.header i] } with
      out := (compute ROWS COLS { m with out := m.out ++ [Event.header i] }).out ++
        [Event.printGrid (compute ROWS COLS { m with out := m.out ++ [Event.header i] }).newGrid,
         Event.printStats (printStats ROWS COLS
          (compute ROWS COLS { m with out := m.out ++ [Event.header i] }).newGrid)] } hR hC
  rw [h5 r c hr.1 hr.2 hc.1 hc.2]
  obtain ⟨-, -, -, -, k5⟩ := omp_compute_spec ROWS COLS { m with out := m.out ++ [Event.header i] }
    hR hC
  exact k5 r c hr.1 hr.2 hc.1 hc.2

/-- The number of invocations of `checker` in one iteration of the generation loop. -/
theorem omp_generation_calls (ROWS COLS i : Int) (m : Machine) (hR : 0 ≤ ROWS) (hC : 0 ≤ COLS) :
    ((generation ROWS COLS i m).calls : Int) = m.calls + ROWS * COLS := by
  unfold generation
  simp only
  obtain ⟨-, -, -, h4, -⟩ := copyBack_spec ROWS COLS
    { compute ROWS COLS { m with out := m.out ++ [Event.header i] } with
      out := (compute ROWS COLS { m with out := m.out ++ [Event.header i] }).out ++
        [Event.printGrid (compute ROWS COLS { m with out := m.out ++ [Event.header i] }).newGrid,
         Event.printStats (printStats ROWS COLS
          (compute ROWS COLS { m with out := m.out ++ [Event.header i] }).newGrid)] } hR hC
  rw [h4]
  obtain ⟨-, -, -, k4, -⟩ := omp_compute_spec ROWS COLS { m with out := m.out ++ [Event.header i] }
    hR hC
  exact k4

/-- The border ring that `fillGrid` writes. -/
theorem fillGrid_border (srand : Int → Nat → Nat) (ROWS COLS : Int) (grid : Grid) (seed : Int)
    (r c : Int) (hr : 0 ≤ r ∧ r < ROWS) (hc : 0 ≤ c ∧ c < COLS)
    (hb : r = 0 ∨ r = ROWS - 1 ∨ c = 0 ∨ c = COLS - 1) :
    (fillGrid srand ROWS COLS grid seed).1 r c = .NORMAL := by
  have hR : 0 ≤ ROWS := by omega
  have hC : 0 ≤ COLS := by omega
  have key := forRange2_induction 0 ROWS 0 COLS (fun r c => fillCell ROWS COLS r c)
    (fun r c t => ∀ r' c', 0 ≤ r' → 0 ≤ c' → c' < COLS → (r' < r ∨ (r' = r ∧ c' < c)) →
        (r' = 0 ∨ r' = ROWS - 1 ∨ c' = 0 ∨ c' = COLS - 1) → t.1 r' c' = .NORMAL)
    (grid, ⟨srand seed, 0⟩) hR hC (fun r' c' h1 h2 _ h4 => by omega)
    (by
      intro r c t _ _ _ _ h5 r' c' a b d e f
      by_cases hcell : r' = r ∧ c' = c
      · obtain ⟨rfl, rfl⟩ := hcell
        have hb' : (r' == 0 || r' == ROWS - 1 || c' == 0 || c' == COLS - 1) = true := by
          simpa [or_assoc] using f
        simp [fillCell, hb', setCell]
      · have hlt : r' < r ∨ (r' = r ∧ c' < c) := by omega
        have hprev := h5 r' c' a b d hlt f
        show (fillCell ROWS COLS r c t).1 r' c' = State.NORMAL
        simp only [fillCell]
        split_ifs <;> simpa [setCell, hcell] using hprev)
    (by
      intro r t _ _ h5 r' c' a b d e f
      exact h5 r' c' a b d (by omega) f)
  exact key r c hr.1 hc.1 hc.2 (by omega) hb

end Omp

/-- C1: for an interior cell of the fixed-border grid, a `Normal` cell becomes `Addict` exactly
when the score `10*a + 25*k - 20*v` of its 8 Moore neighbours exceeds 50 and stays `Normal`
otherwise, and an `Addict` cell stays `Addict` exactly when the score exceeds 55 and becomes
`Normal` otherwise. -/
theorem Omp.discrete_threshold_rule (ROWS COLS : Int) (grid : Grid) (r c : Int)
    (hr : 0 < r ∧ r < ROWS - 1) (hc : 0 < c ∧ c < COLS - 1) :
    (grid r c = .NORMAL → Omp.checker ROWS COLS grid r c =
      if 10 * (Omp.neighboursIn grid r c .ADDICT : Int)
          + 25 * (Omp.neighboursIn grid r c .CONVERTER : Int)
          - 20 * (Omp.neighboursIn grid r c .RECOVERER : Int) > 50
      then .ADDICT else .NORMAL) ∧
    (grid r c = .ADDICT → Omp.checker ROWS COLS grid r c =
      if 10 * (Omp.neighboursIn grid r c .ADDICT : Int)
          + 25 * (Omp.neighboursIn grid r c .CONVERTER : Int)
          - 20 * (Omp.neighboursIn grid r c .RECOVERER : Int) > 55
      then .ADDICT else .NORMAL) := by
  rw [Omp.checker_interior ROWS COLS grid r c hr hc]
  refine ⟨fun h => ?_, fun h => ?_⟩
  · simp [h, Omp.score]
  · simp only [h, Omp.score]
    by_cases hs : 10 * (Omp.neighboursIn grid r c .ADDICT : Int)
          + 25 * (Omp.neighboursIn grid r c .CONVERTER : Int)
          - 20 * (Omp.neighboursIn grid r c .RECOVERER : Int) > 55
    · have hs' : ¬ (10 * (Omp.neighboursIn grid r c .ADDICT : Int)
          + 25 * (Omp.neighboursIn grid r c .CONVERTER : Int)
          - 20 * (Omp.neighboursIn grid r c .RECOVERER : Int) ≤ 55) := by omega
      simp [hs, hs']
    · have hs' : 10 * (Omp.neighboursIn grid r c .ADDICT : Int)
          + 25 * (Omp.neighboursIn grid r c .CONVERTER : Int)
          - 20 * (Omp.neighboursIn grid r c .RECOVERER : Int) ≤ 55 := by omega
      simp [hs, hs']

/-- Witness of C1: the centre of a 3x3 grid of addicts (score 80) stays `Addict`. -/
theorem Omp.discrete_threshold_rule_witness :
    ((0 : Int) < 1 ∧ (1 : Int) < 3 - 1) ∧ Omp.checker 3 3 allAddict 1 1 = .ADDICT := by
  refine ⟨by decide, ?_⟩
  rw [(Omp.discrete_threshold_rule 3 3 allAddict 1 1 (by decide) (by decide)).2 rfl]
  decide

/-- C2: under the discrete rule a `Converter` or `Recoverer` interior cell holds the same state
after any number `n` of iterations of the generation loop, and `checker` returns the current state
of such a cell whatever the rest of the grid is. -/
theorem Omp.locked_states_never_change (ROWS COLS : Int) (m : Machine) (r c : Int) (n : Nat)
    (hr : 0 < r ∧ r < ROWS - 1) (hc : 0 < c ∧ c < COLS - 1)
    (hl : m.oldGrid r c = .CONVERTER ∨ m.oldGrid r c = .RECOVERER) :
    (forRange 2 (2 + (n : Int)) (Omp.generation ROWS COLS) m).oldGrid r c = m.oldGrid r c ∧
    ∀ grid : Grid, grid r c = m.oldGrid r c → Omp.checker ROWS COLS grid r c = grid r c := by
  constructor
  · induction n with
    | zero => rw [forRange_empty _ _ _ _ (by simp)]
    | succ n ih =>
      rw [forRange_succ_right,
        Omp.omp_generation_oldGrid ROWS COLS _ _ r c (by omega) (by omega),
        Omp.checker_locked ROWS COLS _ r c hr hc (by rw [ih]; exact hl), ih]
  · intro grid hg
    exact Omp.checker_locked ROWS COLS grid r c hr hc (by rw [hg]; exact hl)

/-- Witness of C2: the `Recoverer` at the centre of a 3x3 sample grid, after 4 iterations. -/
theorem Omp.locked_states_never_change_witness :
    (forRange 2 (2 + ((4 : Nat) : Int)) (Omp.generation 3 3) sampleMachine).oldGrid 1 1
      = .RECOVERER := by
  rw [(Omp.locked_states_never_change 3 3 sampleMachine 1 1 4 (by decide) (by decide)
    (Or.inr (by decide))).1]
  decide

/-- C7: under the fixed border, for every `ROWS` and `COLS` (at least 1, as the grid has a cell),
seed and generator, every cell of the border ring is `Normal` after `fillGrid` and after any
number `n` of iterations of the generation loop, and `checker` returns `Normal` at a border
position whatever the grid holds. -/
theorem Omp.border_ring_normal (srand : Int → Nat → Nat) (ROWS COLS seed : Int)
    (oldGrid newGrid : Grid) (n : Nat) (r c : Int)
    (hr : 0 ≤ r ∧ r < ROWS) (hc : 0 ≤ c ∧ c < COLS)
    (hb : r = 0 ∨ r = ROWS - 1 ∨ c = 0 ∨ c = COLS - 1) :
    (Omp.fillGrid srand ROWS COLS oldGrid seed).1 r c = .NORMAL ∧
    (forRange 2 (2 + (n : Int)) (Omp.generation ROWS COLS)
      (Omp.start srand ROWS COLS seed oldGrid newGrid)).oldGrid r c = .NORMAL ∧
    ∀ grid : Grid, Omp.checker ROWS COLS grid r c = .NORMAL := by
  refine ⟨Omp.fillGrid_border srand ROWS COLS oldGrid seed r c hr hc hb, ?_,
    fun grid => Omp.checker_border ROWS COLS grid r c hb⟩
  cases n with
  | zero =>
    rw [forRange_empty _ _ _ _ (by simp)]
    exact Omp.fillGrid_border srand ROWS COLS oldGrid seed r c hr hc hb
  | succ n =>
    rw [forRange_succ_right, Omp.omp_generation_oldGrid ROWS COLS _ _ r c hr hc,
      Omp.checker_border ROWS COLS _ r c hb]

/-- Witness of C7: a corner of a 4x5 grid of converters after `fillGrid` and 3 iterations. -/
theorem Omp.border_ring_normal_witness :
    (Omp.fillGrid sampleSrand 4 5 allConverter 42).1 3 4 = .NORMAL ∧
    (forRange 2 (2 + ((3 : Nat) : Int)) (Omp.generation 4 5)
      (Omp.start sampleSrand 4 5 42 allConverter allConverter)).oldGrid 3 4 = .NORMAL ∧
    ∀ grid : Grid, Omp.checker 4 5 grid 3 4 = .NORMAL :=
  Omp.border_ring_normal sampleSrand 4 5 42 allConverter allConverter 3 3 4 (by decide)
    (by decide) (by decide)

/-! ## The continuous-pressure program -/

namespace Sim

/-- The wrapped index computed by `checker` is the non-negative remainder, and it is in range. -/
theorem wrap_index (n x i : Int) (hx : 0 ≤ x ∧ x < n) (hi : -1 ≤ i ∧ i ≤ 1) :
    Int.tmod (x + i + n) n = (x + i) % n ∧ 0 ≤ (x + i) % n ∧ (x + i) % n < n := by
  refine ⟨?_, Int.emod_nonneg _ (by omega), Int.emod_lt_of_pos _ (by omega)⟩
  rw [Int.tmod_eq_emod (by omega) (by omega), Int.add_emod_self]

/-- The two neighbour loops, unrolled. -/
theorem eachNeighbor_unroll {σ : Type} (ROWS COLS r c : Int) (visit : Int → Int → σ → σ)
    (s : σ) :
    eachNeighbor ROWS COLS r c visit s =
      visit (Int.tmod (r + 1 + ROWS) ROWS) (Int.tmod (c + 1 + COLS) COLS)
      (visit (Int.tmod (r + 1 + ROWS) ROWS) (Int.tmod (c + 0 + COLS) COLS)
      (visit (Int.tmod (r + 1 + ROWS) ROWS) (Int.tmod (c + -1 + COLS) COLS)
      (visit (Int.tmod (r + 0 + ROWS) ROWS) (Int.tmod (c + 1 + COLS) COLS)
      (visit (Int.tmod (r + 0 + ROWS) ROWS) (Int.tmod (c + -1 + COLS) COLS)
      (visit (Int.tmod (r + -1 + ROWS) ROWS) (Int.tmod (c + 1 + COLS) COLS)
      (visit (Int.tmod (r + -1 + ROWS) ROWS) (Int.tmod (c + 0 + COLS) COLS)
      (visit (Int.tmod (r + -1 + ROWS) ROWS) (Int.tmod (c + -1 + COLS) COLS) s))))))) := by
  simp only [eachNeighbor, forRange_neg_one_two]
  rfl

/-- The indices read by the neighbour loops. -/
theorem neighborReads_unroll (ROWS COLS r c : Int) :
    neighborReads ROWS COLS r c =
      [(Int.tmod (r + -1 + ROWS) ROWS, Int.tmod (c + -1 + COLS) COLS),
       (Int.tmod (r + -1 + ROWS) ROWS, Int.tmod (c + 0 + COLS) COLS),
       (Int.tmod (r + -1 + ROWS) ROWS, Int.tmod (c + 1 + COLS) COLS),
       (Int.tmod (r + 0 + ROWS) ROWS, Int.tmod (c + -1 + COLS) COLS),
       (Int.tmod (r + 0 + ROWS) ROWS, Int.tmod (c + 1 + COLS) COLS),
       (Int.tmod (r + 1 + ROWS) ROWS, Int.tmod (c + -1 + COLS) COLS),
       (Int.tmod (r + 1 + ROWS) ROWS, Int.tmod (c + 0 + COLS) COLS),
       (Int.tmod (r + 1 + ROWS) ROWS, Int.tmod (c + 1 + COLS) COLS)] := by
  rw [neighborReads, eachNeighbor_unroll]
  rfl

/-- The neighbour loops visit the indices of `neighborReads`, in that order. -/
theorem eachNeighbor_eq_foldl {σ : Type} (ROWS COLS r c : Int) (visit : Int → Int → σ → σ)
    (s : σ) :
    eachNeighbor ROWS COLS r c visit s =
      (neighborReads ROWS COLS r c).foldl (fun acc p => visit p.1 p.2 acc) s := by
  rw [neighborReads_unroll, eachNeighbor_unroll]
  rfl

/-- On an in-range cell the indices read are the toroidal neighbours of the specification. -/
theorem neighborReads_eq_torus (ROWS COLS r c : Int) (hr : 0 ≤ r ∧ r < ROWS)
    (hc : 0 ≤ c ∧ c < COLS) :
    neighborReads ROWS COLS r c = torusNeighbours ROWS COLS r c := by
  rw [neighborReads_unroll]
  simp only [torusNeighbours, offsets, List.map_cons, List.map_nil,
    (wrap_index ROWS r (-1) hr (by decide)).1, (wrap_index ROWS r 0 hr (by decide)).1,
    (wrap_index ROWS r 1 hr (by decide)).1, (wrap_index COLS c (-1) hc (by decide)).1,
    (wrap_index COLS c 0 hc (by decide)).1, (wrap_index COLS c 1 hc (by decide)).1]

/-- Every toroidal neighbour of an in-range cell is in range. -/
theorem torusNeighbours_in_range (ROWS COLS r c : Int) (hR : 1 ≤ ROWS) (hC : 1 ≤ COLS)
    (p : Int × Int) (hp : p ∈ torusNeighbours ROWS COLS r c) :
    (0 ≤ p.1 ∧ p.1 < ROWS) ∧ (0 ≤ p.2 ∧ p.2 < COLS) := by
  simp only [torusNeighbours, List.mem_map] at hp
  obtain ⟨d, -, rfl⟩ := hp
  exact ⟨⟨Int.emod_nonneg _ (by omega), Int.emod_lt_of_pos _ (by omega)⟩,
    ⟨Int.emod_nonneg _ (by omega), Int.emod_lt_of_pos _ (by omega)⟩⟩

theorem affectedPressure_cons (st : State) (l : List State) :
    affectedPressure (st :: l) =
      (if st = .ADDICT ∨ st = .CONVERTER then influence st else 0) + affectedPressure l := by
  unfold affectedPressure
  by_cases h : st = .ADDICT ∨ st = .CONVERTER
  · simp [List.filter_cons, h]
  · simp [List.filter_cons, h]

theorem unaffectedPressure_cons (st : State) (l : List State) :
    unaffectedPressure (st :: l) =
      (if st = .NORMAL ∨ st = .RECOVERER then influence st else 0) + unaffectedPressure l := by
  unfold unaffectedPressure
  by_cases h : st = .NORMAL ∨ st = .RECOVERER
  · simp [List.filter_cons, h]
  · simp [List.filter_cons, h]

/-- The accumulation of `checker` over a list of indices adds the two sums of the specification
to the accumulators. -/
theorem foldl_addPressure (grid : Grid) (l : List (Int × Int)) (p : Pressure) :
    l.foldl (fun acc q => addPressure grid q.1 q.2 acc) p =
      ⟨p.addict_pressure + affectedPressure (l.map (fun q => grid q.1 q.2)),
       p.normal_pressure + unaffectedPressure (l.map (fun q => grid q.1 q.2))⟩ := by
  induction l generalizing p with
  | nil => simp [affectedPressure, unaffectedPressure]
  | cons q l ih =>
    rw [List.foldl_cons, ih, List.map_cons, affectedPressure_cons, unaffectedPressure_cons]
    cases hq : grid q.1 q.2 <;>
      simp [addPressure, hq, isAddictType, getInfluence, influence, add_assoc] <;> norm_num

/-- The pressures of `checker` are the two sums of the specification over the samples read. -/
theorem pressures_eq (ROWS COLS : Int) (grid : Grid) (r c : Int) :
    pressures ROWS COLS grid r c =
      ⟨affectedPressure ((neighborReads ROWS COLS r c).map (fun q => grid q.1 q.2)),
       unaffectedPressure ((neighborReads ROWS COLS r c).map (fun q => grid q.1 q.2))⟩ := by
  rw [pressures, eachNeighbor_eq_foldl, foldl_addPressure]
  norm_num

theorem rowBefore_succ (r c : Int) (hc : 0 ≤ c) : rowBefore r (c + 1) = rowBefore r c ++ [(r, c)] := by
  have e : (c + 1).toNat = c.toNat + 1 := by omega
  have e' : ((c.toNat : Nat) : Int) = c := by omega
  simp [rowBefore, e, List.range_succ, e']

theorem cellsBefore_succ_col (COLS r c : Int) (hc : 0 ≤ c) :
    cellsBefore COLS r (c + 1) = cellsBefore COLS r c ++ [(r, c)] := by
  simp [cellsBefore, rowBefore_succ r c hc]

theorem cellsBefore_succ_row (COLS r : Int) (hr : 0 ≤ r) :
    cellsBefore COLS (r + 1) 0 = cellsBefore COLS r COLS := by
  have e : (r + 1).toNat = r.toNat + 1 := by omega
  have e' : ((r.toNat : Nat) : Int) = r := by omega
  simp [cellsBefore, e, List.range_succ, e', rowBefore]

theorem cellsBefore_zero (COLS : Int) : cellsBefore COLS 0 0 = [] := by
  simp [cellsBefore, rowBefore]

theorem rngAfter_append (RAND_MAX ROWS COLS : Int) (grid : Grid) (g : Rng)
    (l : List (Int × Int)) (r c : Int) :
    rngAfter RAND_MAX ROWS COLS grid g (l ++ [(r, c)]) =
      (checker RAND_MAX ROWS COLS grid r c (rngAfter RAND_MAX ROWS COLS grid g l)).2 := by
  simp [rngAfter, List.foldl_append]

/-- The first pair of loops of a generation: every cell of the new grid is `checker` of the old
grid, run on the generator left by the cells before it in row-major order; nothing else is read,
and `checker` is invoked once per cell. -/
theorem sim_compute_spec (RAND_MAX ROWS COLS : Int) (m : Machine) (hR : 0 ≤ ROWS) (hC : 0 ≤ COLS) :
    (compute RAND_MAX ROWS COLS m).oldGrid = m.oldGrid ∧
    (compute RAND_MAX ROWS COLS m).rng
      = rngAfter RAND_MAX ROWS COLS m.oldGrid m.rng (cellsBefore COLS ROWS 0) ∧
    (compute RAND_MAX ROWS COLS m).out = m.out ∧
    ((compute RAND_MAX ROWS COLS m).calls : Int) = m.calls + ROWS * COLS ∧
    ∀ r c, 0 ≤ r → r < ROWS → 0 ≤ c → c < COLS →
      (compute RAND_MAX ROWS COLS m).newGrid r c =
        (checker RAND_MAX ROWS COLS m.oldGrid r c
          (rngAfter RAND_MAX ROWS COLS m.oldGrid m.rng (cellsBefore COLS r c))).1 := by
  have key := forRange2_induction 0 ROWS 0 COLS (fun r c => computeCell RAND_MAX ROWS COLS r c)
    (fun r c t => t.oldGrid = m.oldGrid ∧
      t.rng = rngAfter RAND_MAX ROWS COLS m.oldGrid m.rng (cellsBefore COLS r c) ∧
      t.out = m.out ∧ (t.calls : Int) = m.calls + r * COLS + c ∧
      ∀ r' c', 0 ≤ r' → 0 ≤ c' → c' < COLS → (r' < r ∨ (r' = r ∧ c' < c)) →
        t.newGrid r' c' = (checker RAND_MAX ROWS COLS m.oldGrid r' c'
          (rngAfter RAND_MAX ROWS COLS m.oldGrid m.rng (cellsBefore COLS r' c'))).1) m hR hC
    ⟨rfl, by simp [cellsBefore_zero, rngAfter], rfl, by simp, fun r' c' h1 h2 _ h4 => by omega⟩
    (by
      rintro r c t _ _ hc0 _ ⟨h1, h2, h3, h4, h5⟩
      refine ⟨h1, ?_, h3, ?_, fun r' c' a b d e => ?_⟩
      · rw [cellsBefore_succ_col COLS r c hc0, rngAfter_append]
        simp only [computeCell, h1, h2]
      · simp only [computeCell]
        push_cast
        rw [h4]
        ring
      · by_cases hcell : r' = r ∧ c' = c
        · obtain ⟨rfl, rfl⟩ := hcell
          simp [computeCell, setCell, h1, h2]
        · have : r' < r ∨ (r' = r ∧ c' < c) := by omega
          simpa [computeCell, setCell, hcell] using h5 r' c' a b d this)
    (by
      rintro r t hr0 _ ⟨h1, h2, h3, h4, h5⟩
      refine ⟨h1, ?_, h3, ?_, fun r' c' a b d e => h5 r' c' a b d (by omega)⟩
      · rw [cellsBefore_succ_row COLS r hr0]
        exact h2
      · rw [h4]
        ring)
  obtain ⟨h1, h2, h3, h4, h5⟩ := key
  simp only [add_zero] at h4
  exact ⟨h1, h2, h3, h4, fun r c a b d e => h5 r c a d e (by omega)⟩

/-- One iteration of the generation loop: every cell of the current grid becomes `checker` of
the grid as it was before the iteration, the draws being consumed in row-major cell order. -/
theorem sim_generation_oldGrid (RAND_MAX ROWS COLS i : Int) (m : Machine) (r c : Int)
    (hr : 0 ≤ r ∧ r < ROWS) (hc : 0 ≤ c ∧ c < COLS) :
    (generation RAND_MAX ROWS COLS i m).oldGrid r c =
      (checker RAND_MAX ROWS COLS m.oldGrid r c
        (rngAfter RAND_MAX ROWS COLS m.oldGrid m.rng (cellsBefore COLS r c))).1 := by
  have hR : 0 ≤ ROWS := by omega
  have hC : 0 ≤ COLS := by omega
  unfold generation
  simp only
  obtain ⟨-, -, -, -, h5⟩ := copyBack_spec ROWS COLS
    { compute RAND_MAX ROWS COLS m with
      out := (compute RAND_MAX ROWS COLS m).out ++
        [Event.printGrid (compute RAND_MAX ROWS COLS m).newGrid] } hR hC
  rw [h5 r c hr.1 hr.2 hc.1 hc.2]
  obtain ⟨-, -, -, -, k5⟩ := sim_compute_spec RAND_MAX ROWS COLS m hR hC
  exact k5 r c hr.1 hr.2 hc.1 hc.2

/-- The generator after one iteration of the generation loop. -/
theorem sim_generation_rng (RAND_MAX ROWS COLS i : Int) (m : Machine) (hR : 0 ≤ ROWS)
    (hC : 0 ≤ COLS) :
    (generation RAND_MAX ROWS COLS i m).rng
      = rngAfter RAND_MAX ROWS COLS m.oldGrid m.rng (cellsBefore COLS ROWS 0) := by
  unfold generation
  simp only
  obtain ⟨-, h2, -, -, -⟩ := copyBack_spec ROWS COLS
    { compute RAND_MAX ROWS COLS m with
      out := (compute RAND_MAX ROWS COLS m).out ++
        [Event.printGrid (compute RAND_MAX ROWS COLS m).newGrid] } hR hC
  rw [h2]
  obtain ⟨-, k2, -, -, -⟩ := sim_compute_spec RAND_MAX ROWS COLS m hR hC
  exact k2

/-- The number of invocations of `checker` in one iteration of the generation loop. -/
theorem sim_generation_calls (RAND_MAX ROWS COLS i : Int) (m : Machine) (hR : 0 ≤ ROWS)
    (hC : 0 ≤ COLS) :
    ((generation RAND_MAX ROWS COLS i m).calls : Int) = m.calls + ROWS * COLS := by
  unfold generation
  simp only
  obtain ⟨-, -, -, h4, -⟩ := copyBack_spec ROWS COLS
    { compute RAND_MAX ROWS COLS m with
      out := (compute RAND_MAX ROWS COLS m).out ++
        [Event.printGrid (compute RAND_MAX ROWS COLS m).newGrid] } hR hC
  rw [h4]
  obtain ⟨-, -, -, k4, -⟩ := sim_compute_spec RAND_MAX ROWS COLS m hR hC
  exact k4

/-- The result of `checker`, by cases on the two draws. -/
theorem transition_fst (RAND_MAX : Int) (current : State) (transition_prob : ℚ) (g : Rng) :
    (transition RAND_MAX current transition_prob g).1 =
      if ((g.seq g.pos : ℚ) / (RAND_MAX : ℚ)) < transition_prob then
        if current = .ADDICT ∨ current = .CONVERTER then
          if ((g.seq (g.pos + 1) : ℚ) / (RAND_MAX : ℚ)) < 0.08 then .RECOVERER else .NORMAL
        else
          if ((g.seq (g.pos + 1) : ℚ) / (RAND_MAX : ℚ)) < 0.08 then .CONVERTER else .ADDICT
      else current := by
  simp only [transition, rand, isAddictType, Bool.or_eq_true, beq_iff_eq, Int.cast_natCast]
  split_ifs <;> rfl

theorem affectedPressure_normal (l : List State) (h : ∀ st ∈ l, st = State.NORMAL) :
    affectedPressure l = 0 := by
  induction l with
  | nil => simp [affectedPressure]
  | cons st l ih =>
    have hst : st = State.NORMAL := h st (List.mem_cons_self st l)
    rw [affectedPressure_cons, ih (fun x hx => h x (List.mem_cons_of_mem st hx))]
    simp [hst]

/-- On a grid whose cells are all `Normal` the transition probability of a cell is 0. -/
theorem transitionProb_allNormal (ROWS COLS : Int) (grid : Grid)
    (hall : ∀ r c, 0 ≤ r → r < ROWS → 0 ≤ c → c < COLS → grid r c = State.NORMAL) (r c : Int)
    (hr : 0 ≤ r ∧ r < ROWS) (hc : 0 ≤ c ∧ c < COLS) :
    transitionProb ROWS COLS grid r c = 0 := by
  have hcur : grid r c = State.NORMAL := hall r c hr.1 hr.2 hc.1 hc.2
  have hzero : (pressures ROWS COLS grid r c).addict_pressure = 0 := by
    rw [pressures_eq, neighborReads_eq_torus ROWS COLS r c hr hc]
    apply affectedPressure_normal
    intro st hst
    obtain ⟨q, hq, rfl⟩ := List.mem_map.1 hst
    obtain ⟨h1, h2⟩ := torusNeighbours_in_range ROWS COLS r c (by omega) (by omega) q hq
    exact hall q.1 q.2 h1.1 h1.2 h2.1 h2.2
  simp [transitionProb, hcur, isAddictType, hzero]

/-- With probability 0 the cell keeps its state, whatever the draws are. -/
theorem transition_zero (RAND_MAX : Int) (hmax : 0 < RAND_MAX) (current : State) (g : Rng) :
    (transition RAND_MAX current 0 g).1 = current := by
  rw [transition_fst, if_neg]
  have h1 : (0 : ℚ) < (RAND_MAX : ℚ) := by exact_mod_cast hmax
  have h2 : (0 : ℚ) ≤ (g.seq g.pos : ℚ) := by positivity
  have h3 : (0 : ℚ) ≤ (g.seq g.pos : ℚ) / (RAND_MAX : ℚ) := div_nonneg h2 h1.le
  exact not_lt.2 h3

end Sim

/-- C3: the transition probability of the continuous rule.  For an in-range cell of a grid with
`ROWS, COLS ≥ 1`, over its 8 toroidal neighbour samples, `addict_pressure` is the sum of the
influences of the `Addict` and `Converter` samples, `normal_pressure` that of the `Normal` and
`Recoverer` samples, the influence being 1 for `Normal` and `Addict` and 3 for `Converter` and
`Recoverer`; the total adds 0.0001; and the probability is `normal_pressure / total` for an
`Addict` or `Converter` cell and `addict_pressure / total` otherwise.  `checker` decides with
this probability. -/
theorem Sim.transition_probability (ROWS COLS : Int) (grid : Grid) (r c : Int)
    (hr : 0 ≤ r ∧ r < ROWS) (hc : 0 ≤ c ∧ c < COLS) :
    (Sim.samples ROWS COLS grid r c).length = 8 ∧
    (∀ st, Sim.getInfluence st = Sim.influence st) ∧
    (Sim.pressures ROWS COLS grid r c).addict_pressure
      = Sim.affectedPressure (Sim.samples ROWS COLS grid r c) ∧
    (Sim.pressures ROWS COLS grid r c).normal_pressure
      = Sim.unaffectedPressure (Sim.samples ROWS COLS grid r c) ∧
    Sim.totalPressure ROWS COLS grid r c
      = Sim.affectedPressure (Sim.samples ROWS COLS grid r c)
        + Sim.unaffectedPressure (Sim.samples ROWS COLS grid r c) + 1 / 10000 ∧
    Sim.transitionProb ROWS COLS grid r c =
      (if grid r c = .ADDICT ∨ grid r c = .CONVERTER then
        Sim.unaffectedPressure (Sim.samples ROWS COLS grid r c) /
          (Sim.affectedPressure (Sim.samples ROWS COLS grid r c)
            + Sim.unaffectedPressure (Sim.samples ROWS COLS grid r c) + 1 / 10000)
      else
        Sim.affectedPressure (Sim.samples ROWS COLS grid r c) /
          (Sim.affectedPressure (Sim.samples ROWS COLS grid r c)
            + Sim.unaffectedPressure (Sim.samples ROWS COLS grid r c) + 1 / 10000)) ∧
    ∀ (RAND_MAX : Int) (g : Rng), Sim.checker RAND_MAX ROWS COLS grid r c g =
      Sim.transition RAND_MAX (grid r c) (Sim.transitionProb ROWS COLS grid r c) g := by
  have hp := Sim.pressures_eq ROWS COLS grid r c
  rw [Sim.neighborReads_eq_torus ROWS COLS r c hr hc] at hp
  have ha : (Sim.pressures ROWS COLS grid r c).addict_pressure
      = Sim.affectedPressure (Sim.samples ROWS COLS grid r c) := by
    rw [hp]
    rfl
  have hn : (Sim.pressures ROWS COLS grid r c).normal_pressure
      = Sim.unaffectedPressure (Sim.samples ROWS COLS grid r c) := by
    rw [hp]
    rfl
  have ht : Sim.totalPressure ROWS COLS grid r c
      = Sim.affectedPressure (Sim.samples ROWS COLS grid r c)
        + Sim.unaffectedPressure (Sim.samples ROWS COLS grid r c) + 1 / 10000 := by
    rw [Sim.totalPressure, ha, hn]
    norm_num
  refine ⟨by simp [Sim.samples, Sim.torusNeighbours, Sim.offsets], ?_, ha, hn, ht, ?_,
    fun _ _ => rfl⟩
  · intro st
    cases st <;> simp [Sim.getInfluence, Sim.influence] <;> norm_num
  · rw [Sim.transitionProb, ha, hn, ht]
    simp only [Sim.isAddictType, Bool.or_eq_true, beq_iff_eq]

/-- Witness of C3: the centre of a 3x3 sample grid. -/
theorem Sim.transition_probability_witness :
    Sim.transitionProb 3 3 mixedGrid 1 1 =
      (if mixedGrid 1 1 = .ADDICT ∨ mixedGrid 1 1 = .CONVERTER then
        Sim.unaffectedPressure (Sim.samples 3 3 mixedGrid 1 1) /
          (Sim.affectedPressure (Sim.samples 3 3 mixedGrid 1 1)
            + Sim.unaffectedPressure (Sim.samples 3 3 mixedGrid 1 1) + 1 / 10000)
      else
        Sim.affectedPressure (Sim.samples 3 3 mixedGrid 1 1) /
          (Sim.affectedPressure (Sim.samples 3 3 mixedGrid 1 1)
            + Sim.unaffectedPressure (Sim.samples 3 3 mixedGrid 1 1) + 1 / 10000)) :=
  (Sim.transition_probability 3 3 mixedGrid 1 1 (by decide) (by decide)).2.2.2.2.2.1

/-- C5: under the continuous rule on the torus, a grid whose cells are all `Normal` is left all
`Normal` by one iteration of the generation loop, whatever values `rand()` returns: the
transition probability of every cell is 0 and no draw is below 0. -/
theorem Sim.all_normal_stays_normal (RAND_MAX ROWS COLS i : Int) (m : Machine)
    (hmax : 0 < RAND_MAX)
    (hall : ∀ r c, 0 ≤ r → r < ROWS → 0 ≤ c → c < COLS → m.oldGrid r c = State.NORMAL)
    (r c : Int) (hr : 0 ≤ r ∧ r < ROWS) (hc : 0 ≤ c ∧ c < COLS) :
    Sim.transitionProb ROWS COLS m.oldGrid r c = 0 ∧
    (Sim.generation RAND_MAX ROWS COLS i m).oldGrid r c = State.NORMAL := by
  have h0 := Sim.transitionProb_allNormal ROWS COLS m.oldGrid hall r c hr hc
  refine ⟨h0, ?_⟩
  rw [Sim.sim_generation_oldGrid RAND_MAX ROWS COLS i m r c hr hc, Sim.checker, h0,
    Sim.transition_zero RAND_MAX hmax]
  exact hall r c hr.1 hr.2 hc.1 hc.2

/-- Witness of C5: a corner of a 3x3 all-`Normal` grid after one iteration. -/
theorem Sim.all_normal_stays_normal_witness :
    Sim.transitionProb 3 3 normalMachine.oldGrid 0 0 = 0 ∧
    (Sim.generation 32767 3 3 2 normalMachine).oldGrid 0 0 = State.NORMAL :=
  Sim.all_normal_stays_normal 32767 3 3 2 normalMachine (by decide)
    (fun _ _ _ _ _ _ => rfl) 0 0 (by decide) (by decide)

/-- C6: toroidal neighbourhood sampling.  For an in-range cell of a grid with `ROWS, COLS ≥ 1`,
`checker` reads exactly 8 neighbour samples, one for each offset `(dr, dc)` of `{-1, 0, 1}²`
other than `(0, 0)`, at row `(r + dr) mod ROWS` and column `(c + dc) mod COLS` with the
non-negative modulo; each index is in range; and in a 3x3 grid the samples of `(0, 0)` include the
cell `(2, 2)`. -/
theorem Sim.toroidal_sampling (ROWS COLS r c : Int) (hr : 0 ≤ r ∧ r < ROWS)
    (hc : 0 ≤ c ∧ c < COLS) :
    Sim.neighborReads ROWS COLS r c
      = Sim.offsets.map (fun d => ((r + d.1) % ROWS, (c + d.2) % COLS)) ∧
    (Sim.neighborReads ROWS COLS r c).length = 8 ∧
    (∀ dr dc : Int, (dr, dc) ∈ Sim.offsets ↔
      (-1 ≤ dr ∧ dr ≤ 1 ∧ -1 ≤ dc ∧ dc ≤ 1 ∧ ¬ (dr = 0 ∧ dc = 0))) ∧
    Sim.offsets.Nodup ∧
    (∀ p ∈ Sim.neighborReads ROWS COLS r c, (0 ≤ p.1 ∧ p.1 < ROWS) ∧ (0 ≤ p.2 ∧ p.2 < COLS)) ∧
    (∀ grid : Grid, Sim.pressures ROWS COLS grid r c =
      (Sim.neighborReads ROWS COLS r c).foldl (fun acc p => Sim.addPressure grid p.1 p.2 acc)
        ⟨0, 0⟩) ∧
    ((2, 2) : Int × Int) ∈ Sim.neighborReads 3 3 0 0 := by
  have ht := Sim.neighborReads_eq_torus ROWS COLS r c hr hc
  refine ⟨ht, ?_, ?_, by decide, ?_, ?_, by decide⟩
  · rw [Sim.neighborReads_unroll]
    rfl
  · intro dr dc
    simp only [Sim.offsets, List.mem_cons, Prod.mk.injEq, List.mem_singleton, List.mem_nil_iff,
      or_false]
    omega
  · intro p hp
    rw [ht] at hp
    exact Sim.torusNeighbours_in_range ROWS COLS r c (by omega) (by omega) p hp
  · intro grid
    rw [Sim.pressures, Sim.eachNeighbor_eq_foldl]
    norm_num

/-- Witness of C6: the reads of the corner `(0, 0)` of a 3x3 grid. -/
theorem Sim.toroidal_sampling_witness :
    Sim.neighborReads 3 3 0 0
      = Sim.offsets.map (fun d => ((0 + d.1) % 3, (0 + d.2) % 3)) ∧
    (Sim.neighborReads 3 3 0 0).length = 8 :=
  ⟨(Sim.toroidal_sampling 3 3 0 0 (by decide) (by decide)).1,
   (Sim.toroidal_sampling 3 3 0 0 (by decide) (by decide)).2.1⟩

/-- C8: step correctness in both programs.  After one iteration of the generation loop every
cell of the current grid holds `checker` of the grid as it was before the iteration; in the
continuous program the draws of a cell are those that follow the draws of the cells before it in
row-major order.  No next state depends on a cell updated in the same generation. -/
theorem step_correct (RAND_MAX ROWS COLS i : Int) (m : Machine) (r c : Int)
    (hr : 0 ≤ r ∧ r < ROWS) (hc : 0 ≤ c ∧ c < COLS) :
    (Omp.generation ROWS COLS i m).oldGrid r c = Omp.checker ROWS COLS m.oldGrid r c ∧
    (Sim.generation RAND_MAX ROWS COLS i m).oldGrid r c =
      (Sim.checker RAND_MAX ROWS COLS m.oldGrid r c
        (Sim.rngAfter RAND_MAX ROWS COLS m.oldGrid m.rng (Sim.cellsBefore COLS r c))).1 ∧
    (Sim.generation RAND_MAX ROWS COLS i m).rng =
      Sim.rngAfter RAND_MAX ROWS COLS m.oldGrid m.rng (Sim.cellsBefore COLS ROWS 0) :=
  ⟨Omp.omp_generation_oldGrid ROWS COLS i m r c hr hc,
   Sim.sim_generation_oldGrid RAND_MAX ROWS COLS i m r c hr hc,
   Sim.sim_generation_rng RAND_MAX ROWS COLS i m (by omega) (by omega)⟩

/-- Witness of C8: the cell `(1, 2)` of a 3x3 sample grid, whose draws follow those of the five
cells before it. -/
theorem step_correct_witness :
    Sim.cellsBefore 3 1 2 = [(0, 0), (0, 1), (0, 2), (1, 0), (1, 1)] ∧
    (Omp.generation 3 3 2 sampleMachine).oldGrid 1 2
      = Omp.checker 3 3 sampleMachine.oldGrid 1 2 ∧
    (Sim.generation 32767 3 3 2 sampleMachine).oldGrid 1 2 =
      (Sim.checker 32767 3 3 sampleMachine.oldGrid 1 2
        (Sim.rngAfter 32767 3 3 sampleMachine.oldGrid sampleMachine.rng
          (Sim.cellsBefore 3 1 2))).1 ∧
    (Sim.generation 32767 3 3 2 sampleMachine).rng =
      Sim.rngAfter 32767 3 3 sampleMachine.oldGrid sampleMachine.rng (Sim.cellsBefore 3 3 0) :=
  ⟨by decide, step_correct 32767 3 3 2 sampleMachine 1 2 (by decide) (by decide)⟩

/-! ## The generation loop and the tallies -/

theorem Omp.omp_generation_out (ROWS COLS i : Int) (m : Machine) (hR : 0 ≤ ROWS) (hC : 0 ≤ COLS) :
    (Omp.generation ROWS COLS i m).out.length = m.out.length + 3 := by
  unfold Omp.generation
  simp only
  obtain ⟨-, -, h3, -, -⟩ := copyBack_spec ROWS COLS
    { Omp.compute ROWS COLS { m with out := m.out ++ [Event.header i] } with
      out := (Omp.compute ROWS COLS { m with out := m.out ++ [Event.header i] }).out ++
        [Event.printGrid
          (Omp.compute ROWS COLS { m with out := m.out ++ [Event.header i] }).newGrid,
         Event.printStats (Omp.printStats ROWS COLS
          (Omp.compute ROWS COLS { m with out := m.out ++ [Event.header i] }).newGrid)] } hR hC
  rw [h3]
  obtain ⟨-, -, k3, -, -⟩ := Omp.omp_compute_spec ROWS COLS
    { m with out := m.out ++ [Event.header i] } hR hC
  simp [k3]

theorem Sim.sim_generation_out (RAND_MAX ROWS COLS i : Int) (m : Machine) (hR : 0 ≤ ROWS)
    (hC : 0 ≤ COLS) :
    (Sim.generation RAND_MAX ROWS COLS i m).out.length = m.out.length + 1 := by
  unfold Sim.generation
  simp only
  obtain ⟨-, -, h3, -, -⟩ := copyBack_spec ROWS COLS
    { Sim.compute RAND_MAX ROWS COLS m with
      out := (Sim.compute RAND_MAX ROWS COLS m).out ++
        [Event.printGrid (Sim.compute RAND_MAX ROWS COLS m).newGrid] } hR hC
  rw [h3]
  obtain ⟨-, -, k3, -, -⟩ := Sim.sim_compute_spec RAND_MAX ROWS COLS m hR hC
  simp [k3]

/-- After `k` iterations of the generation loop of `simulation_omp.c`. -/
theorem Omp.omp_run_count (ROWS COLS : Int) (hR : 0 ≤ ROWS) (hC : 0 ≤ COLS) (k : Nat) (m : Machine) :
    ((forRange 2 (2 + (k : Int)) (Omp.generation ROWS COLS) m).calls : Int)
      = m.calls + k * (ROWS * COLS) ∧
    (forRange 2 (2 + (k : Int)) (Omp.generation ROWS COLS) m).out.length
      = m.out.length + 3 * k := by
  induction k with
  | zero => simp [forRange_empty]
  | succ k ih =>
    rw [forRange_succ_right, Omp.omp_generation_calls ROWS COLS _ _ hR hC,
      Omp.omp_generation_out ROWS COLS _ _ hR hC, ih.1, ih.2]
    constructor
    · push_cast
      ring
    · ring

/-- After `k` iterations of the generation loop of `src/simulation.c`. -/
theorem Sim.sim_run_count (RAND_MAX ROWS COLS : Int) (hR : 0 ≤ ROWS) (hC : 0 ≤ COLS) (k : Nat)
    (m : Machine) :
    ((forRange 2 (2 + (k : Int)) (Sim.generation RAND_MAX ROWS COLS) m).calls : Int)
      = m.calls + k * (ROWS * COLS) ∧
    (forRange 2 (2 + (k : Int)) (Sim.generation RAND_MAX ROWS COLS) m).out.length
      = m.out.length + k := by
  induction k with
  | zero => simp [forRange_empty]
  | succ k ih =>
    rw [forRange_succ_right, Sim.sim_generation_calls RAND_MAX ROWS COLS _ _ hR hC,
      Sim.sim_generation_out RAND_MAX ROWS COLS _ _ hR hC, ih.1, ih.2]
    constructor
    · push_cast
      ring
    · ring

theorem tally_total (st : State) (t : Stats) : (tally st t).total = t.total + 1 := by
  cases st <;> simp [tally, Stats.total] <;> ring

/-- The two counting loops of `printStats` count every cell of their range once. -/
theorem tallyLoops_total (r0 r1 c0 c1 : Int) (hr : r0 ≤ r1) (hc : c0 ≤ c1) (grid : Grid)
    (t : Stats) :
    (forRange r0 r1 (fun r => forRange c0 c1 (fun c => tally (grid r c))) t).total
      = t.total + (r1 - r0) * (c1 - c0) := by
  have key := forRange2_induction r0 r1 c0 c1 (fun r c => tally (grid r c))
    (fun r c u => u.total = t.total + (r - r0) * (c1 - c0) + (c - c0)) t hr hc (by ring)
    (by
      intro r c u _ _ _ _ h
      show (tally (grid r c) u).total = _
      rw [tally_total, h]
      ring)
    (by
      intro r u _ _ h
      rw [h]
      ring)
  rw [key]
  ring

/-- C9: generation counting in both drivers.  For a generation count `n ≥ 1` the generation loop
runs exactly `n - 1` times, numbered 2 to `n`, after the seeded generation: it invokes `checker`
`n - 1` times per cell and prints `n` generations.  For `n = 1` `checker` is never invoked, and
the grid and the tallies that are printed are those of the output of `fillGrid`. -/
theorem generation_counting (srand : Int → Nat → Nat) (RAND_MAX rows cols seed n : Int)
    (oldGrid newGrid : Grid) (hn : 1 ≤ n) (hrows : 0 ≤ rows) (hcols : 0 ≤ cols) :
    (Omp.main srand rows cols seed n oldGrid newGrid =
      (List.range (n - 1).toNat).foldl
        (fun m (k : Nat) => Omp.generation (rows + 2) (cols + 2) (2 + (k : Int)) m)
        (Omp.start srand (rows + 2) (cols + 2) seed oldGrid newGrid)) ∧
    ((Omp.main srand rows cols seed n oldGrid newGrid).calls : Int)
      = (n - 1) * ((rows + 2) * (cols + 2)) ∧
    ((Omp.main srand rows cols seed n oldGrid newGrid).out.length : Int) = 3 * n ∧
    ((Sim.main srand RAND_MAX rows cols seed n oldGrid newGrid).calls : Int)
      = (n - 1) * (rows * cols) ∧
    ((Sim.main srand RAND_MAX rows cols seed n oldGrid newGrid).out.length : Int) = n + 1 ∧
    (Omp.main srand rows cols seed 1 oldGrid newGrid).calls = 0 ∧
    (Omp.main srand rows cols seed 1 oldGrid newGrid).oldGrid
      = (Omp.fillGrid srand (rows + 2) (cols + 2) oldGrid seed).1 ∧
    (Omp.main srand rows cols seed 1 oldGrid newGrid).out =
      [Event.header 1,
       Event.printGrid (Omp.fillGrid srand (rows + 2) (cols + 2) oldGrid seed).1,
       Event.printStats (Omp.printStats (rows + 2) (cols + 2)
        (Omp.fillGrid srand (rows + 2) (cols + 2) oldGrid seed).1)] ∧
    (Sim.main srand RAND_MAX rows cols seed 1 oldGrid newGrid).calls = 0 ∧
    (Sim.main srand RAND_MAX rows cols seed 1 oldGrid newGrid).oldGrid
      = (Sim.fillGrid srand rows cols oldGrid seed).1 ∧
    (Sim.main srand RAND_MAX rows cols seed 1 oldGrid newGrid).rng
      = (Sim.fillGrid srand rows cols oldGrid seed).2 ∧
    (Sim.main srand RAND_MAX rows cols seed 1 oldGrid newGrid).out =
      [Event.printGrid (Sim.fillGrid srand rows cols oldGrid seed).1,
       Event.printStats (Sim.printStats rows cols
        (Sim.fillGrid srand rows cols oldGrid seed).1)] := by
  have e : n + 1 = 2 + (((n - 1).toNat : Nat) : Int) := by omega
  have e' : (((n - 1).toNat : Nat) : Int) = n - 1 := by omega
  have e1 : (n + 1 - 2).toNat = (n - 1).toNat := by omega
  have ho := Omp.omp_run_count (rows + 2) (cols + 2) (by omega) (by omega) (n - 1).toNat
    (Omp.start srand (rows + 2) (cols + 2) seed oldGrid newGrid)
  have hs := Sim.sim_run_count RAND_MAX rows cols hrows hcols (n - 1).toNat
    (Sim.start srand rows cols seed oldGrid newGrid)
  rw [← e, e'] at ho hs
  refine ⟨?_, ?_, ?_, ?_, ?_, ?_, ?_, ?_, ?_, ?_, ?_, ?_⟩
  · simp only [Omp.main, forRange, e1]
  · simp only [Omp.main]
    rw [ho.1]
    simp [Omp.start]
  · simp only [Omp.main]
    rw [ho.2]
    simp only [Omp.start, List.length_cons, List.length_nil]
    omega
  · simp only [Sim.main]
    rw [hs.1]
    simp [Sim.start]
  · simp only [Sim.main, List.length_append, List.length_cons, List.length_nil]
    rw [hs.2]
    simp only [Sim.start, List.length_cons, List.length_nil]
    omega
  all_goals simp [Omp.main, Sim.main, forRange_empty, Omp.start, Sim.start]

/-- Witness of C9: three generations on a 2x3 interior. -/
theorem generation_counting_witness :
    ((Omp.main sampleSrand 2 3 42 3 allAddict allAddict).calls : Int)
      = (3 - 1) * ((2 + 2) * (3 + 2)) ∧
    ((Sim.main sampleSrand 32767 2 3 42 3 allAddict allAddict).calls : Int)
      = (3 - 1) * (2 * 3) :=
  ⟨(generation_counting sampleSrand 32767 2 3 42 3 allAddict allAddict (by decide) (by decide)
      (by decide)).2.1,
   (generation_counting sampleSrand 32767 2 3 42 3 allAddict allAddict (by decide) (by decide)
      (by decide)).2.2.2.1⟩

/-- C10: the tallies are complete.  The four counts of `printStats` sum to `ROWS * COLS` in the
toroidal program (`ROWS, COLS ≥ 0`) and to the number `(ROWS - 2) * (COLS - 2)` of interior cells
in the fixed-border program (`ROWS, COLS ≥ 2`), which is the product `rows * cols` of the two
numbers of the command line. -/
theorem tallies_complete (ROWS COLS : Int) (grid : Grid) (hR : 0 ≤ ROWS) (hC : 0 ≤ COLS) :
    (Sim.printStats ROWS COLS grid).normal + (Sim.printStats ROWS COLS grid).addict
      + (Sim.printStats ROWS COLS grid).converter + (Sim.printStats ROWS COLS grid).recoverer
      = ROWS * COLS ∧
    (2 ≤ ROWS → 2 ≤ COLS →
      (Omp.printStats ROWS COLS grid).normal + (Omp.printStats ROWS COLS grid).addict
        + (Omp.printStats ROWS COLS grid).converter + (Omp.printStats ROWS COLS grid).recoverer
        = (ROWS - 2) * (COLS - 2)) ∧
    (Omp.printStats (ROWS + 2) (COLS + 2) grid).normal
      + (Omp.printStats (ROWS + 2) (COLS + 2) grid).addict
      + (Omp.printStats (ROWS + 2) (COLS + 2) grid).converter
      + (Omp.printStats (ROWS + 2) (COLS + 2) grid).recoverer = ROWS * COLS := by
  refine ⟨?_, fun h2R h2C => ?_, ?_⟩
  · have h := tallyLoops_total 0 ROWS 0 COLS hR hC grid ⟨0, 0, 0, 0⟩
    simp only [Stats.total] at h
    rw [Sim.printStats, h]
    ring
  · have h := tallyLoops_total 1 (ROWS - 1) 1 (COLS - 1) (by omega) (by omega) grid ⟨0, 0, 0, 0⟩
    simp only [Stats.total] at h
    rw [Omp.printStats, h]
    ring
  · have h := tallyLoops_total 1 (ROWS + 2 - 1) 1 (COLS + 2 - 1) (by omega) (by omega) grid
      ⟨0, 0, 0, 0⟩
    simp only [Stats.total] at h
    rw [Omp.printStats, h]
    ring

/-- Witness of C10: the tallies of a sample grid, 4 rows by 5 columns. -/
theorem tallies_complete_witness :
    (Sim.printStats 4 5 mixedGrid).normal + (Sim.printStats 4 5 mixedGrid).addict
      + (Sim.printStats 4 5 mixedGrid).converter + (Sim.printStats 4 5 mixedGrid).recoverer
      = 4 * 5 ∧
    (Omp.printStats 4 5 mixedGrid).normal + (Omp.printStats 4 5 mixedGrid).addict
      + (Omp.printStats 4 5 mixedGrid).converter + (Omp.printStats 4 5 mixedGrid).recoverer
      = (4 - 2) * (5 - 2) :=
  ⟨(tallies_complete 4 5 mixedGrid (by decide) (by decide)).1,
   (tallies_complete 4 5 mixedGrid (by decide) (by decide)).2.1 (by decide) (by decide)⟩

/-! ## The initial grid -/

theorem Omp.fillCell_border (ROWS COLS r c : Int) (s : Grid × Rng)
    (hb : Omp.onBorder ROWS COLS r c = true) :
    Omp.fillCell ROWS COLS r c s = (setCell s.1 r c .NORMAL, s.2) := by
  unfold Omp.onBorder at hb
  simp only [Omp.fillCell, hb, if_true]

theorem Omp.fillCell_interior (ROWS COLS r c : Int) (s : Grid × Rng)
    (hb : Omp.onBorder ROWS COLS r c = false) :
    Omp.fillCell ROWS COLS r c s =
      (setCell s.1 r c (Omp.initialState (Int.tmod (rand s.2).1 100)), (rand s.2).2) := by
  unfold Omp.onBorder at hb
  unfold Omp.fillCell
  rw [if_neg (by rw [hb]; decide)]
  simp only [Omp.initialState]
  split_ifs <;> rfl

theorem Sim.fillCell_eq (r c : Int) (s : Grid × Rng) :
    Sim.fillCell r c s =
      (setCell s.1 r c (Sim.initialState (Int.tmod (rand s.2).1 100)), (rand s.2).2) := by
  simp only [Sim.fillCell, Sim.initialState]
  split_ifs <;> rfl

/-- The value `rand() % 100` lies in `0..99`. -/
theorem rand_mod_range (g : Rng) :
    0 ≤ Int.tmod (rand g).1 100 ∧ Int.tmod (rand g).1 100 < 100 := by
  have h0 : (0 : Int) ≤ (rand g).1 := by simp [rand]
  rw [Int.tmod_eq_emod h0 (by decide)]
  omega

/-- C11: the two initial distributions.  `fillGrid` assigns a cell that draws the state of the
bucket chain at `d = rand() % 100`, which lies in `0..99`; of these 100 values the chain of
`simulation_omp.c` sends 50 to `Normal`, 20 to `Addict`, 15 to `Converter` and 15 to `Recoverer`,
and the chain of `src/simulation.c` sends 70 to `Normal`, 20 to `Addict`, 5 to `Recoverer` and 5
to `Converter`. -/
theorem initial_distribution_presets (ROWS COLS r c : Int) (s : Grid × Rng)
    (hb : Omp.onBorder ROWS COLS r c = false) :
    (Omp.fillCell ROWS COLS r c s).1 r c = Omp.initialState (Int.tmod (rand s.2).1 100) ∧
    (Sim.fillCell r c s).1 r c = Sim.initialState (Int.tmod (rand s.2).1 100) ∧
    (0 ≤ Int.tmod (rand s.2).1 100 ∧ Int.tmod (rand s.2).1 100 < 100) ∧
    (List.range 100).countP (fun d => Omp.initialState (d : Int) = .NORMAL) = 50 ∧
    (List.range 100).countP (fun d => Omp.initialState (d : Int) = .ADDICT) = 20 ∧
    (List.range 100).countP (fun d => Omp.initialState (d : Int) = .CONVERTER) = 15 ∧
    (List.range 100).countP (fun d => Omp.initialState (d : Int) = .RECOVERER) = 15 ∧
    (List.range 100).countP (fun d => Sim.initialState (d : Int) = .NORMAL) = 70 ∧
    (List.range 100).countP (fun d => Sim.initialState (d : Int) = .ADDICT) = 20 ∧
    (List.range 100).countP (fun d => Sim.initialState (d : Int) = .RECOVERER) = 5 ∧
    (List.range 100).countP (fun d => Sim.initialState (d : Int) = .CONVERTER) = 5 := by
  refine ⟨?_, ?_, rand_mod_range s.2, by decide, by decide, by decide, by decide, by decide,
    by decide, by decide, by decide⟩
  · rw [Omp.fillCell_interior ROWS COLS r c s hb]
    simp [setCell]
  · rw [Sim.fillCell_eq]
    simp [setCell]

/-- Witness of C11: the centre of a 3x3 grid, with a generator whose first draw is 1234. -/
theorem initial_distribution_presets_witness :
    (Omp.fillCell 3 3 1 1 (allAddict, ⟨fun _ => 1234, 0⟩)).1 1 1
      = Omp.initialState (Int.tmod (rand (⟨fun _ => 1234, 0⟩ : Rng)).1 100) ∧
    (Sim.fillCell 1 1 (allAddict, ⟨fun _ => 1234, 0⟩)).1 1 1
      = Sim.initialState (Int.tmod (rand (⟨fun _ => 1234, 0⟩ : Rng)).1 100) :=
  ⟨(initial_distribution_presets 3 3 1 1 (allAddict, ⟨fun _ => 1234, 0⟩) (by decide)).1,
   (initial_distribution_presets 3 3 1 1 (allAddict, ⟨fun _ => 1234, 0⟩) (by decide)).2.1⟩

theorem Omp.drawsBefore_succ_col (ROWS COLS r c : Int) (hc : 0 ≤ c) :
    Omp.drawsBefore ROWS COLS r (c + 1) =
      Omp.drawsBefore ROWS COLS r c + (if Omp.onBorder ROWS COLS r c then 0 else 1) := by
  unfold Omp.drawsBefore
  rw [Sim.cellsBefore_succ_col COLS r c hc, List.countP_append]
  cases h : Omp.onBorder ROWS COLS r c <;> simp [h]

theorem Omp.drawsBefore_succ_row (ROWS COLS r : Int) (hr : 0 ≤ r) :
    Omp.drawsBefore ROWS COLS (r + 1) 0 = Omp.drawsBefore ROWS COLS r COLS := by
  unfold Omp.drawsBefore
  rw [Sim.cellsBefore_succ_row COLS r hr]

/-- What `fillGrid` of `simulation_omp.c` leaves: every cell of the array is assigned, a border
cell `Normal` and an interior cell the bucket of its own draw, the draws being taken in row-major
order over the interior cells. -/
theorem Omp.omp_fillGrid_spec (srand : Int → Nat → Nat) (ROWS COLS : Int) (grid : Grid) (seed : Int)
    (hR : 0 ≤ ROWS) (hC : 0 ≤ COLS) :
    (Omp.fillGrid srand ROWS COLS grid seed).2
      = ⟨srand seed, Omp.drawsBefore ROWS COLS ROWS 0⟩ ∧
    ∀ r c, 0 ≤ r → r < ROWS → 0 ≤ c → c < COLS →
      (Omp.fillGrid srand ROWS COLS grid seed).1 r c =
        if Omp.onBorder ROWS COLS r c then State.NORMAL
        else Omp.initialState
          (Int.tmod ((srand seed (Omp.drawsBefore ROWS COLS r c) : Nat) : Int) 100) := by
  have key := forRange2_induction 0 ROWS 0 COLS (fun r c => Omp.fillCell ROWS COLS r c)
    (fun r c t => t.2 = ⟨srand seed, Omp.drawsBefore ROWS COLS r c⟩ ∧
      ∀ r' c', 0 ≤ r' → 0 ≤ c' → c' < COLS → (r' < r ∨ (r' = r ∧ c' < c)) →
        t.1 r' c' = if Omp.onBorder ROWS COLS r' c' then State.NORMAL
          else Omp.initialState
            (Int.tmod ((srand seed (Omp.drawsBefore ROWS COLS r' c') : Nat) : Int) 100))
    (grid, ⟨srand seed, 0⟩) hR hC
    ⟨by simp [Omp.drawsBefore, Sim.cellsBefore_zero], fun r' c' h1 h2 _ h4 => by omega⟩
    (by
      rintro r c t _ _ hc0 _ ⟨h1, h2⟩
      beta_reduce
      cases hb : Omp.onBorder ROWS COLS r c
      · rw [Omp.fillCell_interior ROWS COLS r c t hb, Omp.drawsBefore_succ_col ROWS COLS r c hc0]
        refine ⟨by simp [rand, h1, hb], fun r' c' a b d e => ?_⟩
        by_cases hcell : r' = r ∧ c' = c
        · obtain ⟨rfl, rfl⟩ := hcell
          simp [setCell, hb, rand, h1]
        · have : r' < r ∨ (r' = r ∧ c' < c) := by omega
          simpa [setCell, hcell] using h2 r' c' a b d this
      · rw [Omp.fillCell_border ROWS COLS r c t hb, Omp.drawsBefore_succ_col ROWS COLS r c hc0]
        refine ⟨by simp [h1, hb], fun r' c' a b d e => ?_⟩
        by_cases hcell : r' = r ∧ c' = c
        · obtain ⟨rfl, rfl⟩ := hcell
          simp [setCell, hb]
        · have : r' < r ∨ (r' = r ∧ c' < c) := by omega
          simpa [setCell, hcell] using h2 r' c' a b d this)
    (by
      rintro r t hr0 _ ⟨h1, h2⟩
      refine ⟨?_, fun r' c' a b d e => h2 r' c' a b d (by omega)⟩
      rw [Omp.drawsBefore_succ_row ROWS COLS r hr0]
      exact h1)
  obtain ⟨h1, h2⟩ := key
  exact ⟨h1, fun r c a b d e => h2 r c a d e (by omega)⟩

/-- What `fillGrid` of `src/simulation.c` leaves: every cell of the array is assigned the bucket
of its own draw, the draws being taken in row-major order. -/
theorem Sim.sim_fillGrid_spec (srand : Int → Nat → Nat) (ROWS COLS : Int) (grid : Grid) (seed : Int)
    (hR : 0 ≤ ROWS) (hC : 0 ≤ COLS) :
    (Sim.fillGrid srand ROWS COLS grid seed).2
      = ⟨srand seed, (Sim.cellsBefore COLS ROWS 0).length⟩ ∧
    ∀ r c, 0 ≤ r → r < ROWS → 0 ≤ c → c < COLS →
      (Sim.fillGrid srand ROWS COLS grid seed).1 r c =
        Sim.initialState
          (Int.tmod ((srand seed (Sim.cellsBefore COLS r c).length : Nat) : Int) 100) := by
  have key := forRange2_induction 0 ROWS 0 COLS (fun r c => Sim.fillCell r c)
    (fun r c t => t.2 = ⟨srand seed, (Sim.cellsBefore COLS r c).length⟩ ∧
      ∀ r' c', 0 ≤ r' → 0 ≤ c' → c' < COLS → (r' < r ∨ (r' = r ∧ c' < c)) →
        t.1 r' c' = Sim.initialState
          (Int.tmod ((srand seed (Sim.cellsBefore COLS r' c').length : Nat) : Int) 100))
    (grid, ⟨srand seed, 0⟩) hR hC
    ⟨by simp [Sim.cellsBefore_zero], fun r' c' h1 h2 _ h4 => by omega⟩
    (by
      rintro r c t _ _ hc0 _ ⟨h1, h2⟩
      beta_reduce
      rw [Sim.fillCell_eq, Sim.cellsBefore_succ_col COLS r c hc0]
      refine ⟨by simp [rand, h1], fun r' c' a b d e => ?_⟩
      by_cases hcell : r' = r ∧ c' = c
      · obtain ⟨rfl, rfl⟩ := hcell
        simp [setCell, rand, h1]
      · have : r' < r ∨ (r' = r ∧ c' < c) := by omega
        simpa [setCell, hcell] using h2 r' c' a b d this)
    (by
      rintro r t hr0 _ ⟨h1, h2⟩
      refine ⟨?_, fun r' c' a b d e => h2 r' c' a b d (by omega)⟩
      rw [Sim.cellsBefore_succ_row COLS r hr0]
      exact h1)
  obtain ⟨h1, h2⟩ := key
  exact ⟨h1, fun r c a b d e => h2 r c a d e (by omega)⟩

/-- C12: `fillGrid` is deterministic in the seed, in both programs.  For fixed `ROWS` and `COLS`
and a generator whose sequence is a function of the seed, two runs with the same seed leave the
same state in every cell of the array and the same generator, whatever the two arrays held
before: every cell is assigned a value that depends only on the seed and the dimensions. -/
theorem fillGrid_deterministic (srand : Int → Nat → Nat) (ROWS COLS seed : Int)
    (grid1 grid2 : Grid) (r c : Int) (hr : 0 ≤ r ∧ r < ROWS) (hc : 0 ≤ c ∧ c < COLS) :
    (Omp.fillGrid srand ROWS COLS grid1 seed).1 r c
      = (Omp.fillGrid srand ROWS COLS grid2 seed).1 r c ∧
    (Omp.fillGrid srand ROWS COLS grid1 seed).2 = (Omp.fillGrid srand ROWS COLS grid2 seed).2 ∧
    (Sim.fillGrid srand ROWS COLS grid1 seed).1 r c
      = (Sim.fillGrid srand ROWS COLS grid2 seed).1 r c ∧
    (Sim.fillGrid srand ROWS COLS grid1 seed).2 = (Sim.fillGrid srand ROWS COLS grid2 seed).2 ∧
    (Omp.fillGrid srand ROWS COLS grid1 seed).1 r c =
      (if Omp.onBorder ROWS COLS r c then State.NORMAL
       else Omp.initialState
        (Int.tmod ((srand seed (Omp.drawsBefore ROWS COLS r c) : Nat) : Int) 100)) ∧
    (Sim.fillGrid srand ROWS COLS grid1 seed).1 r c =
      Sim.initialState
        (Int.tmod ((srand seed (Sim.cellsBefore COLS r c).length : Nat) : Int) 100) := by
  have hR : 0 ≤ ROWS := by omega
  have hC : 0 ≤ COLS := by omega
  obtain ⟨a1, a2⟩ := Omp.omp_fillGrid_spec srand ROWS COLS grid1 seed hR hC
  obtain ⟨b1, b2⟩ := Omp.omp_fillGrid_spec srand ROWS COLS grid2 seed hR hC
  obtain ⟨c1, c2⟩ := Sim.sim_fillGrid_spec srand ROWS COLS grid1 seed hR hC
  obtain ⟨d1, d2⟩ := Sim.sim_fillGrid_spec srand ROWS COLS grid2 seed hR hC
  refine ⟨?_, ?_, ?_, ?_, a2 r c hr.1 hr.2 hc.1 hc.2, c2 r c hr.1 hr.2 hc.1 hc.2⟩
  · rw [a2 r c hr.1 hr.2 hc.1 hc.2, b2 r c hr.1 hr.2 hc.1 hc.2]
  · rw [a1, b1]
  · rw [c2 r c hr.1 hr.2 hc.1 hc.2, d2 r c hr.1 hr.2 hc.1 hc.2]
  · rw [c1, d1]

/-- Witness of C12: the cell `(1, 2)` of a 4x5 grid filled over two different arrays. -/
theorem fillGrid_deterministic_witness :
    (Omp.fillGrid sampleSrand 4 5 allAddict 42).1 1 2
      = (Omp.fillGrid sampleSrand 4 5 mixedGrid 42).1 1 2 ∧
    (Sim.fillGrid sampleSrand 4 5 allAddict 42).1 1 2
      = (Sim.fillGrid sampleSrand 4 5 mixedGrid 42).1 1 2 :=
  ⟨(fillGrid_deterministic sampleSrand 4 5 42 allAddict mixedGrid 1 2 (by decide)
      (by decide)).1,
   (fillGrid_deterministic sampleSrand 4 5 42 allAddict mixedGrid 1 2 (by decide)
      (by decide)).2.2.1⟩

/-! ## The end-to-end scenario of the fixed-border driver -/

theorem Omp.drawsBefore_seven (r c : Int) (hr : 1 ≤ r ∧ r ≤ 5) (hc : 1 ≤ c ∧ c ≤ 5) :
    Omp.drawsBefore 7 7 r c = (5 * (r - 1) + (c - 1)).toNat := by
  obtain ⟨h1, h2⟩ := hr
  obtain ⟨h3, h4⟩ := hc
  interval_cases r <;> interval_cases c <;> decide

theorem Omp.main_one (srand : Int → Nat → Nat) (rows cols seed : Int) (oldGrid newGrid : Grid) :
    Omp.main srand rows cols seed 1 oldGrid newGrid
      = Omp.start srand (rows + 2) (cols + 2) seed oldGrid newGrid := by
  simp [Omp.main, forRange_empty]

/-- C15, as amended: the fixed-border driver run with `rows = 5`, `cols = 5` and
`generations = 1` leaves a 7x7 grid whose border ring is `Normal` and whose 5x5 interior is
assigned in row-major order from 25 successive draws of `rand() % 100` by the buckets `< 50`
`Normal`, `< 70` `Addict`, `< 85` `Converter`, otherwise `Recoverer`; exactly 25 draws are
consumed and `checker` is not invoked. -/
theorem Omp.fixed_border_scenario (srand : Int → Nat → Nat) (seed : Int) (oldGrid newGrid : Grid)
    (r c : Int) (hr : 0 ≤ r ∧ r < 7) (hc : 0 ≤ c ∧ c < 7) :
    ((r = 0 ∨ r = 6 ∨ c = 0 ∨ c = 6) →
      (Omp.main srand 5 5 seed 1 oldGrid newGrid).oldGrid r c = State.NORMAL) ∧
    ((1 ≤ r ∧ r ≤ 5) ∧ (1 ≤ c ∧ c ≤ 5) →
      (Omp.main srand 5 5 seed 1 oldGrid newGrid).oldGrid r c =
        Omp.initialState
          (Int.tmod ((srand seed (5 * (r - 1) + (c - 1)).toNat : Nat) : Int) 100)) ∧
    (Omp.main srand 5 5 seed 1 oldGrid newGrid).rng = ⟨srand seed, 25⟩ ∧
    (Omp.main srand 5 5 seed 1 oldGrid newGrid).calls = 0 := by
  obtain ⟨a1, a2⟩ := Omp.omp_fillGrid_spec srand 7 7 oldGrid seed (by decide) (by decide)
  have hm : Omp.main srand 5 5 seed 1 oldGrid newGrid
      = Omp.start srand 7 7 seed oldGrid newGrid := Omp.main_one srand 5 5 seed oldGrid newGrid
  rw [hm]
  have hcell := a2 r c hr.1 hr.2 hc.1 hc.2
  refine ⟨fun hb => ?_, fun hi => ?_, ?_, rfl⟩
  · have hb' : Omp.onBorder 7 7 r c = true := by
      simp only [Omp.onBorder, Bool.or_eq_true, beq_iff_eq]
      omega
    simpa [Omp.start, hb'] using hcell
  · have hb' : Omp.onBorder 7 7 r c = false := by
      rw [← Bool.not_eq_true]
      simp only [Omp.onBorder, Bool.or_eq_true, beq_iff_eq]
      omega
    rw [hb', Omp.drawsBefore_seven r c hi.1 hi.2] at hcell
    simpa [Omp.start] using hcell
  · have h25 : Omp.drawsBefore 7 7 7 0 = 25 := by decide
    rw [h25] at a1
    simpa [Omp.start] using a1

/-- Witness of C15 as amended: the interior cell `(3, 2)` takes the bucket of draw number 11. -/
theorem Omp.fixed_border_scenario_witness :
    (Omp.main sampleSrand 5 5 42 1 allAddict allAddict).oldGrid 3 2 =
      Omp.initialState
        (Int.tmod ((sampleSrand 42 (5 * ((3 : Int) - 1) + (2 - 1)).toNat : Nat) : Int) 100) :=
  (Omp.fixed_border_scenario sampleSrand 42 allAddict allAddict 3 2 (by decide)
    (by decide)).2.1 (by decide)

/-- Counterexample to C15 as stated: with `rows = 5` and `cols = 5` the driver consumes 25 draws,
not 9, and the cell `(5, 5)` of its grid is an interior cell, assigned from the last draw. -/
theorem Omp.nine_draws_counterexample :
    ¬ ((Omp.main sampleSrand 5 5 42 1 allAddict allAddict).rng.pos = 9) ∧
    (Omp.main sampleSrand 5 5 42 1 allAddict allAddict).rng.pos = 25 ∧
    Omp.onBorder (5 + 2) (5 + 2) 5 5 = false := by
  have h := (Omp.omp_fillGrid_spec sampleSrand 7 7 allAddict 42 (by decide) (by decide)).1
  have h25 : Omp.drawsBefore 7 7 7 0 = 25 := by decide
  have hpos : (Omp.main sampleSrand 5 5 42 1 allAddict allAddict).rng.pos = 25 := by
    rw [Omp.main_one]
    simp [Omp.start, h, h25]
  exact ⟨by rw [hpos]; decide, hpos, by decide⟩

/-! ## The reads of the discrete rule -/

/-- The indices read by the neighbour loops of the discrete `checker` are the 8 Moore
neighbours. -/
theorem Omp.neighborReads_eq (r c : Int) : Omp.neighborReads r c = Omp.mooreNeighbours r c := by
  simp only [Omp.neighborReads, forRange_neg_one_two, Omp.mooreNeighbours]
  simp [Int.sub_eq_add_neg]

theorem Omp.mooreNeighbours_in_range (ROWS COLS r c : Int) (hr : 0 < r ∧ r < ROWS - 1)
    (hc : 0 < c ∧ c < COLS - 1) (p : Int × Int) (hp : p ∈ Omp.mooreNeighbours r c) :
    (0 ≤ p.1 ∧ p.1 < ROWS) ∧ (0 ≤ p.2 ∧ p.2 < COLS) := by
  simp only [Omp.mooreNeighbours, List.mem_cons, List.mem_singleton, List.mem_nil_iff,
    or_false] at hp
  rcases hp with h | h | h | h | h | h | h | h <;> subst h <;> simp only <;> omega

theorem Omp.countNeighbor_congr (grid grid' : Grid) (r c i j : Int) (k : Omp.Counts)
    (h : (i = 0 ∧ j = 0) ∨ grid' (r + i) (c + j) = grid (r + i) (c + j)) :
    Omp.countNeighbor grid' r c i j k = Omp.countNeighbor grid r c i j k := by
  unfold Omp.countNeighbor
  rcases h with h | h
  · simp [h.1, h.2]
  · simp only [h]

/-- The neighbour counters depend only on the states of the 8 Moore neighbours. -/
theorem Omp.neighborCounts_congr (grid grid' : Grid) (r c : Int)
    (h : ∀ p ∈ Omp.mooreNeighbours r c, grid' p.1 p.2 = grid p.1 p.2) :
    Omp.neighborCounts grid' r c = Omp.neighborCounts grid r c := by
  have h1 : grid' (r + -1) (c + -1) = grid (r + -1) (c + -1) :=
    h (r + -1, c + -1) (by simp [Omp.mooreNeighbours, Int.sub_eq_add_neg])
  have h2 : grid' (r + -1) (c + 0) = grid (r + -1) (c + 0) :=
    h (r + -1, c + 0) (by simp [Omp.mooreNeighbours, Int.sub_eq_add_neg])
  have h3 : grid' (r + -1) (c + 1) = grid (r + -1) (c + 1) :=
    h (r + -1, c + 1) (by simp [Omp.mooreNeighbours, Int.sub_eq_add_neg])
  have h4 : grid' (r + 0) (c + -1) = grid (r + 0) (c + -1) :=
    h (r + 0, c + -1) (by simp [Omp.mooreNeighbours, Int.sub_eq_add_neg])
  have h5 : grid' (r + 0) (c + 1) = grid (r + 0) (c + 1) :=
    h (r + 0, c + 1) (by simp [Omp.mooreNeighbours, Int.sub_eq_add_neg])
  have h6 : grid' (r + 1) (c + -1) = grid (r + 1) (c + -1) :=
    h (r + 1, c + -1) (by simp [Omp.mooreNeighbours, Int.sub_eq_add_neg])
  have h7 : grid' (r + 1) (c + 0) = grid (r + 1) (c + 0) :=
    h (r + 1, c + 0) (by simp [Omp.mooreNeighbours, Int.sub_eq_add_neg])
  have h8 : grid' (r + 1) (c + 1) = grid (r + 1) (c + 1) :=
    h (r + 1, c + 1) (by simp [Omp.mooreNeighbours, Int.sub_eq_add_neg])
  simp only [Omp.neighborCounts, forRange_neg_one_two]
  rw [Omp.countNeighbor_congr grid grid' r c 1 1 _ (Or.inr h8),
    Omp.countNeighbor_congr grid grid' r c 1 0 _ (Or.inr h7),
    Omp.countNeighbor_congr grid grid' r c 1 (-1) _ (Or.inr h6),
    Omp.countNeighbor_congr grid grid' r c 0 1 _ (Or.inr h5),
    Omp.countNeighbor_congr grid grid' r c 0 0 _ (Or.inl ⟨rfl, rfl⟩),
    Omp.countNeighbor_congr grid grid' r c 0 (-1) _ (Or.inr h4),
    Omp.countNeighbor_congr grid grid' r c (-1) 1 _ (Or.inr h3),
    Omp.countNeighbor_congr grid grid' r c (-1) 0 _ (Or.inr h2),
    Omp.countNeighbor_congr grid grid' r c (-1) (-1) _ (Or.inr h1)]

/-- The result of the discrete `checker` depends only on the cells that it reads. -/
theorem Omp.checker_congr (ROWS COLS : Int) (grid grid' : Grid) (r c : Int)
    (h : ∀ p ∈ Omp.checkerReads ROWS COLS grid r c, grid' p.1 p.2 = grid p.1 p.2) :
    Omp.checker ROWS COLS grid' r c = Omp.checker ROWS COLS grid r c := by
  unfold Omp.checkerReads at h
  unfold Omp.checker
  by_cases hb : (r == 0 || r == ROWS - 1 || c == 0 || c == COLS - 1) = true
  · simp only [hb, if_true]
  · simp only [hb, if_false] at h ⊢
    by_cases hl : (grid r c == State.CONVERTER || grid r c == State.RECOVERER) = true
    · simp only [hl, if_true] at h
      have hcur : grid' r c = grid r c := h (r, c) (by simp)
      simp only [hcur, hl, if_true]
    · simp only [hl, if_false] at h
      have hcur : grid' r c = grid r c := h (r, c) (by simp)
      have hn : Omp.neighborCounts grid' r c = Omp.neighborCounts grid r c :=
        Omp.neighborCounts_congr grid grid' r c (fun p hp =>
          h p (List.mem_cons_of_mem _ (by rw [Omp.neighborReads_eq]; exact hp)))
      simp only [hcur, hn]

/-- C13: the discrete `checker` is total and in bounds.  For an in-range position of a grid with
`ROWS, COLS ≥ 1`, every index that `checker` reads (the cell itself and, for an interior cell,
its 8 neighbours at `(r + i, c + j)` with `i, j` in `{-1, 0, 1}`) is in range, and the result is
determined by the cells read: the rule has no failure path. -/
theorem Omp.checker_in_bounds (ROWS COLS : Int) (grid : Grid) (r c : Int)
    (hr : 0 ≤ r ∧ r < ROWS) (hc : 0 ≤ c ∧ c < COLS) :
    (∀ p ∈ Omp.checkerReads ROWS COLS grid r c,
      (0 ≤ p.1 ∧ p.1 < ROWS) ∧ (0 ≤ p.2 ∧ p.2 < COLS)) ∧
    (Omp.onBorder ROWS COLS r c = false →
      ∀ p ∈ (r, c) :: Omp.neighborReads r c,
        (0 ≤ p.1 ∧ p.1 < ROWS) ∧ (0 ≤ p.2 ∧ p.2 < COLS)) ∧
    Omp.neighborReads r c =
      [(r - 1, c - 1), (r - 1, c), (r - 1, c + 1), (r, c - 1), (r, c + 1),
       (r + 1, c - 1), (r + 1, c), (r + 1, c + 1)] ∧
    (∀ grid' : Grid, (∀ p ∈ Omp.checkerReads ROWS COLS grid r c, grid' p.1 p.2 = grid p.1 p.2) →
      Omp.checker ROWS COLS grid' r c = Omp.checker ROWS COLS grid r c) := by
  have hint : Omp.onBorder ROWS COLS r c = false →
      ∀ p ∈ (r, c) :: Omp.neighborReads r c,
        (0 ≤ p.1 ∧ p.1 < ROWS) ∧ (0 ≤ p.2 ∧ p.2 < COLS) := by
    intro hb p hp
    have hb' : ¬ (r = 0 ∨ r = ROWS - 1 ∨ c = 0 ∨ c = COLS - 1) := by
      intro hcon
      have : Omp.onBorder ROWS COLS r c = true := by
        simpa [Omp.onBorder, or_assoc] using hcon
      rw [hb] at this
      exact Bool.false_ne_true this
    rcases List.mem_cons.1 hp with h | h
    · subst h
      exact ⟨hr, hc⟩
    · rw [Omp.neighborReads_eq] at h
      exact Omp.mooreNeighbours_in_range ROWS COLS r c (by omega) (by omega) p h
  refine ⟨?_, hint, Omp.neighborReads_eq r c, fun grid' h =>
    Omp.checker_congr ROWS COLS grid grid' r c h⟩
  intro p hp
  cases hb : Omp.onBorder ROWS COLS r c
  · apply hint hb p
    unfold Omp.onBorder at hb
    unfold Omp.checkerReads at hp
    rw [if_neg (by rw [hb]; decide)] at hp
    by_cases hl : (grid r c == State.CONVERTER || grid r c == State.RECOVERER) = true
    · simp only [hl, if_true, List.mem_singleton] at hp
      rw [hp]
      exact List.mem_cons_self _ _
    · simpa only [hl, if_false] using hp
  · unfold Omp.onBorder at hb
    unfold Omp.checkerReads at hp
    rw [if_pos hb] at hp
    exact absurd hp (List.not_mem_nil p)

/-- Witness of C13: the read `(2, 0)` of the centre of a 3x3 grid of addicts is in range, and
the neighbour reads of the centre are its 8 Moore neighbours. -/
theorem Omp.checker_in_bounds_witness :
    ((2, 0) : Int × Int) ∈ Omp.checkerReads 3 3 allAddict 1 1 ∧
    (((0 : Int) ≤ 2 ∧ (2 : Int) < 3) ∧ ((0 : Int) ≤ 0 ∧ (0 : Int) < 3)) ∧
    Omp.neighborReads 1 1 =
      [(1 - 1, 1 - 1), (1 - 1, 1), (1 - 1, 1 + 1), (1, 1 - 1), (1, 1 + 1),
       (1 + 1, 1 - 1), (1 + 1, 1), (1 + 1, 1 + 1)] :=
  ⟨by decide,
   (Omp.checker_in_bounds 3 3 allAddict 1 1 (by decide) (by decide)).1 (2, 0) (by decide),
   (Omp.checker_in_bounds 3 3 allAddict 1 1 (by decide) (by decide)).2.2.1⟩

/-! ## The draws and the pressures of the continuous rule -/

theorem Sim.influence_bounds (st : State) : 1 ≤ Sim.influence st ∧ Sim.influence st ≤ 3 := by
  cases st <;> simp [Sim.influence]

/-- Every sample weighs between 1 and 3 in exactly one of the two pressures. -/
theorem Sim.pressure_bounds (l : List State) :
    0 ≤ Sim.affectedPressure l ∧ 0 ≤ Sim.unaffectedPressure l ∧
    (l.length : ℚ) ≤ Sim.affectedPressure l + Sim.unaffectedPressure l ∧
    Sim.affectedPressure l + Sim.unaffectedPressure l ≤ 3 * (l.length : ℚ) := by
  induction l with
  | nil => simp [Sim.affectedPressure, Sim.unaffectedPressure]
  | cons st l ih =>
    obtain ⟨i1, i2, i3, i4⟩ := ih
    rw [Sim.affectedPressure_cons, Sim.unaffectedPressure_cons]
    have hb := Sim.influence_bounds st
    cases st <;> simp at hb ⊢ <;> refine ⟨?_, ?_, ?_, ?_⟩ <;> linarith

/-- C16: the division of the continuous rule is guarded without epsilon.  For an in-range cell
of a grid with `ROWS, COLS ≥ 1` the sum of the two pressures lies between 8 and 24, so the divisor
is positive, and the transition probability satisfies `0 ≤ transitionProb < 1`. -/
theorem Sim.division_guarded (ROWS COLS : Int) (grid : Grid) (r c : Int)
    (hr : 0 ≤ r ∧ r < ROWS) (hc : 0 ≤ c ∧ c < COLS) :
    8 ≤ (Sim.pressures ROWS COLS grid r c).addict_pressure
      + (Sim.pressures ROWS COLS grid r c).normal_pressure ∧
    (Sim.pressures ROWS COLS grid r c).addict_pressure
      + (Sim.pressures ROWS COLS grid r c).normal_pressure ≤ 24 ∧
    8 ≤ Sim.affectedPressure (Sim.samples ROWS COLS grid r c)
      + Sim.unaffectedPressure (Sim.samples ROWS COLS grid r c) ∧
    Sim.affectedPressure (Sim.samples ROWS COLS grid r c)
      + Sim.unaffectedPressure (Sim.samples ROWS COLS grid r c) ≤ 24 ∧
    0 < Sim.totalPressure ROWS COLS grid r c ∧
    0 ≤ Sim.transitionProb ROWS COLS grid r c ∧
    Sim.transitionProb ROWS COLS grid r c < 1 := by
  have hp := Sim.pressures_eq ROWS COLS grid r c
  rw [Sim.neighborReads_eq_torus ROWS COLS r c hr hc] at hp
  have hlen : (Sim.samples ROWS COLS grid r c).length = 8 := by
    simp [Sim.samples, Sim.torusNeighbours, Sim.offsets]
  obtain ⟨b1, b2, b3, b4⟩ := Sim.pressure_bounds (Sim.samples ROWS COLS grid r c)
  rw [hlen] at b3 b4
  have ha : (Sim.pressures ROWS COLS grid r c).addict_pressure
      = Sim.affectedPressure (Sim.samples ROWS COLS grid r c) := by
    rw [hp]
    rfl
  have hn : (Sim.pressures ROWS COLS grid r c).normal_pressure
      = Sim.unaffectedPressure (Sim.samples ROWS COLS grid r c) := by
    rw [hp]
    rfl
  have ht : Sim.totalPressure ROWS COLS grid r c
      = Sim.affectedPressure (Sim.samples ROWS COLS grid r c)
        + Sim.unaffectedPressure (Sim.samples ROWS COLS grid r c) + 1 / 10000 := by
    rw [Sim.totalPressure, ha, hn]
    norm_num
  have htpos : 0 < Sim.totalPressure ROWS COLS grid r c := by
    rw [ht]
    norm_num at b3 ⊢
    linarith
  have b3' : (8 : ℚ) ≤ Sim.affectedPressure (Sim.samples ROWS COLS grid r c)
      + Sim.unaffectedPressure (Sim.samples ROWS COLS grid r c) := by
    norm_num at b3
    exact b3
  have b4' : Sim.affectedPressure (Sim.samples ROWS COLS grid r c)
      + Sim.unaffectedPressure (Sim.samples ROWS COLS grid r c) ≤ 24 := by
    norm_num at b4
    exact b4
  refine ⟨by rw [ha, hn]; exact b3', by rw [ha, hn]; exact b4', b3', b4', htpos, ?_, ?_⟩
  · unfold Sim.transitionProb
    split_ifs
    · rw [hn]
      exact div_nonneg b2 htpos.le
    · rw [ha]
      exact div_nonneg b1 htpos.le
  · unfold Sim.transitionProb
    split_ifs
    · rw [hn, div_lt_one htpos, ht]
      linarith
    · rw [ha, div_lt_one htpos, ht]
      linarith

/-- Witness of C16: the centre of a 3x3 sample grid. -/
theorem Sim.division_guarded_witness :
    0 ≤ Sim.transitionProb 3 3 mixedGrid 1 1 ∧ Sim.transitionProb 3 3 mixedGrid 1 1 < 1 :=
  ⟨(Sim.division_guarded 3 3 mixedGrid 1 1 (by decide) (by decide)).2.2.2.2.2.1,
   (Sim.division_guarded 3 3 mixedGrid 1 1 (by decide) (by decide)).2.2.2.2.2.2⟩

/-! ## The dead zone and the special cells of the discrete rule -/

/-- The three neighbour counts of the score add up to 8 at most. -/
theorem Omp.neighboursIn_sum_le (grid : Grid) (r c : Int) :
    Omp.neighboursIn grid r c .ADDICT + Omp.neighboursIn grid r c .CONVERTER
      + Omp.neighboursIn grid r c .RECOVERER ≤ 8 := by
  have key : ∀ l : List (Int × Int),
      l.countP (fun p => grid p.1 p.2 = State.ADDICT)
        + l.countP (fun p => grid p.1 p.2 = State.CONVERTER)
        + l.countP (fun p => grid p.1 p.2 = State.RECOVERER) ≤ l.length := by
    intro l
    induction l with
    | nil => simp
    | cons p l ih =>
      simp only [List.countP_cons, List.length_cons]
      cases hp : grid p.1 p.2 <;> simp <;> omega
  have h := key (Omp.mooreNeighbours r c)
  simpa [Omp.neighboursIn, Omp.mooreNeighbours] using h

/-- The score of a cell does not depend on the state of the cell itself. -/
theorem Omp.score_setCell (grid : Grid) (r c : Int) (v : State) :
    Omp.score (setCell grid r c v) r c = Omp.score grid r c := by
  have h : ∀ p ∈ Omp.mooreNeighbours r c, setCell grid r c v p.1 p.2 = grid p.1 p.2 := by
    intro p hp
    simp only [Omp.mooreNeighbours, List.mem_cons, List.mem_singleton, List.mem_nil_iff,
      or_false] at hp
    have hne : ¬ (p.1 = r ∧ p.2 = c) := by
      rcases hp with h | h | h | h | h | h | h | h <;> subst h <;> simp only <;> omega
    simp [setCell, hne]
  have hc : ∀ st : State, Omp.neighboursIn (setCell grid r c v) r c st
      = Omp.neighboursIn grid r c st := by
    intro st
    unfold Omp.neighboursIn
    apply List.countP_congr
    intro p hp
    rw [h p hp]
  simp only [Omp.score, hc]

/-- C17: the dead zone of the discrete rule is one attainable score.  The score
`10*a + 25*k - 20*v` of any 8 neighbours is a multiple of 5 between -160 and 200; the only such
score with `50 < score ≤ 55` is 55, which 3 `Addict` and 1 `Converter` neighbours attain; at
score 55 a `Normal` interior cell becomes `Addict` and an `Addict` one becomes `Normal`; at every
other score the two results are the same state. -/
theorem Omp.dead_zone (ROWS COLS : Int) (grid : Grid) (r c : Int)
    (hr : 0 < r ∧ r < ROWS - 1) (hc : 0 < c ∧ c < COLS - 1) :
    ((5 : Int) ∣ Omp.score grid r c ∧ -160 ≤ Omp.score grid r c ∧ Omp.score grid r c ≤ 200) ∧
    (50 < Omp.score grid r c → Omp.score grid r c ≤ 55 → Omp.score grid r c = 55) ∧
    (Omp.score deadZoneGrid 1 1 = 55 ∧ Omp.neighboursIn deadZoneGrid 1 1 .ADDICT = 3 ∧
      Omp.neighboursIn deadZoneGrid 1 1 .CONVERTER = 1 ∧
      Omp.neighboursIn deadZoneGrid 1 1 .RECOVERER = 0) ∧
    (Omp.score grid r c = 55 →
      Omp.checker ROWS COLS (setCell grid r c .NORMAL) r c = .ADDICT ∧
      Omp.checker ROWS COLS (setCell grid r c .ADDICT) r c = .NORMAL) ∧
    (Omp.score grid r c ≠ 55 →
      Omp.checker ROWS COLS (setCell grid r c .NORMAL) r c
        = Omp.checker ROWS COLS (setCell grid r c .ADDICT) r c) := by
  have hsum := Omp.neighboursIn_sum_le grid r c
  have hN : Omp.checker ROWS COLS (setCell grid r c .NORMAL) r c =
      if Omp.score grid r c > 50 then .ADDICT else .NORMAL := by
    rw [Omp.checker_interior ROWS COLS _ r c hr hc, Omp.score_setCell]
    simp [setCell]
  have hA : Omp.checker ROWS COLS (setCell grid r c .ADDICT) r c =
      if Omp.score grid r c ≤ 55 then .NORMAL else .ADDICT := by
    rw [Omp.checker_interior ROWS COLS _ r c hr hc, Omp.score_setCell]
    simp [setCell]
  have hs : Omp.score grid r c = 10 * (Omp.neighboursIn grid r c .ADDICT : Int)
      + 25 * (Omp.neighboursIn grid r c .CONVERTER : Int)
      - 20 * (Omp.neighboursIn grid r c .RECOVERER : Int) := rfl
  refine ⟨⟨?_, ?_, ?_⟩, ?_, ⟨by decide, by decide, by decide, by decide⟩, ?_, ?_⟩
  · rw [hs]
    omega
  · rw [hs]
    omega
  · rw [hs]
    omega
  · rw [hs]
    omega
  · intro h55
    rw [hN, hA, h55]
    decide
  · intro hne
    rw [hN, hA]
    have hdvd : (5 : Int) ∣ Omp.score grid r c := by
      rw [hs]
      omega
    by_cases h1 : Omp.score grid r c > 50
    · have h2 : ¬ Omp.score grid r c ≤ 55 := by omega
      rw [if_pos h1, if_neg h2]
    · have h2 : Omp.score grid r c ≤ 55 := by omega
      rw [if_neg h1, if_pos h2]

/-- Witness of C17: at the centre of the sample grid, of score 55, a `Normal` cell becomes
`Addict` and an `Addict` cell becomes `Normal`. -/
theorem Omp.dead_zone_witness :
    Omp.checker 3 3 (setCell deadZoneGrid 1 1 .NORMAL) 1 1 = .ADDICT ∧
    Omp.checker 3 3 (setCell deadZoneGrid 1 1 .ADDICT) 1 1 = .NORMAL :=
  (Omp.dead_zone 3 3 deadZoneGrid 1 1 (by decide) (by decide)).2.2.2.1 (by decide)

/-- Two counted loops that run in step preserve a relation between their states. -/
theorem forRange_rel {σ τ : Type} (R : σ → τ → Prop) (lo hi : Int) (f : Int → σ → σ)
    (g : Int → τ → τ) (s : σ) (t : τ) (h0 : R s t)
    (step : ∀ k a b, lo ≤ k → k < hi → R a b → R (f k a) (g k b)) :
    R (forRange lo hi f s) (forRange lo hi g t) := by
  unfold forRange
  have key : ∀ n : Nat, n ≤ (hi - lo).toNat →
      R ((List.range n).foldl (fun acc (k : Nat) => f (lo + (k : Int)) acc) s)
        ((List.range n).foldl (fun acc (k : Nat) => g (lo + (k : Int)) acc) t) := by
    intro n
    induction n with
    | zero => intro _; simpa using h0
    | succ n ih =>
      intro hn
      rw [List.range_succ, List.foldl_append, List.foldl_append]
      simp only [List.foldl_cons, List.foldl_nil]
      exact step _ _ _ (by omega) (by omega) (ih (by omega))
  exact key _ (le_refl _)

/-- The discrete `checker` returns a special state exactly on an interior cell that holds it. -/
theorem Omp.checker_special (ROWS COLS : Int) (grid : Grid) (r c : Int) (st : State)
    (hst : st = .CONVERTER ∨ st = .RECOVERER) :
    Omp.checker ROWS COLS grid r c = st ↔
      (Omp.onBorder ROWS COLS r c = false ∧ grid r c = st) := by
  unfold Omp.checker Omp.onBorder
  by_cases hb : (r == 0 || r == ROWS - 1 || c == 0 || c == COLS - 1) = true
  · rw [if_pos hb, hb]
    rcases hst with h | h <;> subst h <;> simp
  · have hb' : (r == 0 || r == ROWS - 1 || c == 0 || c == COLS - 1) = false := by
      simpa using hb
    rw [if_neg hb, hb']
    simp only [true_and]
    cases hg : grid r c <;> rcases hst with h | h <;> subst h <;> simp <;> split_ifs <;> simp

/-- The `Converter` and `Recoverer` tallies of `printStats` depend only on which interior cells
are `Converter` and which are `Recoverer`. -/
theorem Omp.printStats_special_congr (ROWS COLS : Int) (g1 g2 : Grid)
    (h : ∀ r c, 1 ≤ r → r < ROWS - 1 → 1 ≤ c → c < COLS - 1 →
      ((g1 r c = State.CONVERTER ↔ g2 r c = State.CONVERTER) ∧
       (g1 r c = State.RECOVERER ↔ g2 r c = State.RECOVERER))) :
    (Omp.printStats ROWS COLS g1).converter = (Omp.printStats ROWS COLS g2).converter ∧
    (Omp.printStats ROWS COLS g1).recoverer = (Omp.printStats ROWS COLS g2).recoverer := by
  unfold Omp.printStats
  apply forRange_rel (fun a b : Stats => a.converter = b.converter ∧ a.recoverer = b.recoverer)
  · exact ⟨rfl, rfl⟩
  · intro r a b hr1 hr2 hab
    apply forRange_rel
      (fun a b : Stats => a.converter = b.converter ∧ a.recoverer = b.recoverer)
    · exact hab
    · intro c a' b' hc1 hc2 hab'
      obtain ⟨e1, e2⟩ := h r c hr1 hr2 hc1 hc2
      obtain ⟨q1, q2⟩ := hab'
      cases h1 : g1 r c <;> cases h2 : g2 r c <;> simp [h1, h2] at e1 e2 <;>
        simp [tally, q1, q2]

/-- One iteration of the generation loop keeps the special cells of a grid whose border ring is
`Normal`, and keeps the border ring `Normal`. -/
theorem Omp.generation_special (ROWS COLS i : Int) (m : Machine)
    (hborder : ∀ r c, 0 ≤ r → r < ROWS → 0 ≤ c → c < COLS →
      Omp.onBorder ROWS COLS r c = true → m.oldGrid r c = State.NORMAL)
    (r c : Int) (hr : 0 ≤ r ∧ r < ROWS) (hc : 0 ≤ c ∧ c < COLS) (st : State)
    (hst : st = .CONVERTER ∨ st = .RECOVERER) :
    (Omp.generation ROWS COLS i m).oldGrid r c = st ↔ m.oldGrid r c = st := by
  rw [Omp.omp_generation_oldGrid ROWS COLS i m r c hr hc,
    Omp.checker_special ROWS COLS m.oldGrid r c st hst]
  constructor
  · exact fun h => h.2
  · intro h
    refine ⟨?_, h⟩
    cases hb : Omp.onBorder ROWS COLS r c
    · rfl
    · have hn := hborder r c hr.1 hr.2 hc.1 hc.2 hb
      rw [hn] at h
      rcases hst with e | e <;> rw [e] at h <;> exact absurd h (by decide)

/-- C18: under the discrete rule the special cells are conserved.  On a grid whose border ring is
`Normal`, one iteration of the generation loop leaves a cell `Converter` exactly when it was
`Converter` and `Recoverer` exactly when it was `Recoverer`; `checker` never returns either for a
`Normal` or `Addict` cell; so the `Converter` and `Recoverer` tallies of `printStats` are the same
after any number of iterations. -/
theorem Omp.special_cells_conserved (ROWS COLS i : Int) (m : Machine)
    (hborder : ∀ r c, 0 ≤ r → r < ROWS → 0 ≤ c → c < COLS →
      Omp.onBorder ROWS COLS r c = true → m.oldGrid r c = State.NORMAL)
    (r c : Int) (hr : 0 ≤ r ∧ r < ROWS) (hc : 0 ≤ c ∧ c < COLS) (n : Nat) :
    ((Omp.generation ROWS COLS i m).oldGrid r c = .CONVERTER ↔ m.oldGrid r c = .CONVERTER) ∧
    ((Omp.generation ROWS COLS i m).oldGrid r c = .RECOVERER ↔ m.oldGrid r c = .RECOVERER) ∧
    (∀ (grid : Grid) (r' c' : Int), grid r' c' = .NORMAL ∨ grid r' c' = .ADDICT →
      Omp.checker ROWS COLS grid r' c' ≠ .CONVERTER ∧
      Omp.checker ROWS COLS grid r' c' ≠ .RECOVERER) ∧
    (Omp.printStats ROWS COLS
        (forRange 2 (2 + (n : Int)) (Omp.generation ROWS COLS) m).oldGrid).converter
      = (Omp.printStats ROWS COLS m.oldGrid).converter ∧
    (Omp.printStats ROWS COLS
        (forRange 2 (2 + (n : Int)) (Omp.generation ROWS COLS) m).oldGrid).recoverer
      = (Omp.printStats ROWS COLS m.oldGrid).recoverer := by
  refine ⟨Omp.generation_special ROWS COLS i m hborder r c hr hc _ (Or.inl rfl),
    Omp.generation_special ROWS COLS i m hborder r c hr hc _ (Or.inr rfl), ?_, ?_⟩
  · intro grid r' c' hg
    constructor
    · intro hcon
      have := ((Omp.checker_special ROWS COLS grid r' c' _ (Or.inl rfl)).1 hcon).2
      rcases hg with e | e <;> rw [e] at this <;> exact absurd this (by decide)
    · intro hcon
      have := ((Omp.checker_special ROWS COLS grid r' c' _ (Or.inr rfl)).1 hcon).2
      rcases hg with e | e <;> rw [e] at this <;> exact absurd this (by decide)
  · induction n with
    | zero =>
      rw [forRange_empty _ _ _ _ (by simp)]
      exact ⟨rfl, rfl⟩
    | succ n ih =>
      rw [forRange_succ_right]
      obtain ⟨i1, i2⟩ := ih
      rw [← i1, ← i2]
      apply Omp.printStats_special_congr
      intro r' c' a b d e
      have hint : Omp.onBorder ROWS COLS r' c' = false := by
        rw [← Bool.not_eq_true]
        simp only [Omp.onBorder, Bool.or_eq_true, beq_iff_eq]
        omega
      constructor
      · rw [Omp.omp_generation_oldGrid ROWS COLS _ _ r' c' (by omega) (by omega),
          Omp.checker_special ROWS COLS _ r' c' _ (Or.inl rfl)]
        simp [hint]
      · rw [Omp.omp_generation_oldGrid ROWS COLS _ _ r' c' (by omega) (by omega),
          Omp.checker_special ROWS COLS _ r' c' _ (Or.inr rfl)]
        simp [hint]

/-- Witness of C18: the grid left by `fillGrid` on a 4x5 array, whose border ring is `Normal`,
keeps its tallies of special cells over 3 iterations. -/
theorem Omp.special_cells_conserved_witness :
    (Omp.printStats 4 5 (forRange 2 (2 + ((3 : Nat) : Int)) (Omp.generation 4 5)
        (Omp.start sampleSrand 4 5 42 allConverter allConverter)).oldGrid).converter
      = (Omp.printStats 4 5
          (Omp.start sampleSrand 4 5 42 allConverter allConverter).oldGrid).converter :=
  (Omp.special_cells_conserved 4 5 2 (Omp.start sampleSrand 4 5 42 allConverter allConverter)
    (fun r c h1 h2 h3 h4 hb =>
      Omp.fillGrid_border sampleSrand 4 5 allConverter 42 r c ⟨h1, h2⟩ ⟨h3, h4⟩
        (by simpa [Omp.onBorder, or_assoc] using hb))
    1 1 (by decide) (by decide) 3).2.2.2.1

/-! ## Proper toroidal neighbourhoods -/

/-- The three wrapped indices around an in-range index of a dimension of at least 3 are
pairwise distinct, the middle one being the index itself. -/
theorem Sim.wrap_distinct (n x : Int) (hn : 3 ≤ n) (hx : 0 ≤ x ∧ x < n) :
    (x + 0) % n = x ∧ (x + -1) % n ≠ x ∧ (x + 1) % n ≠ x ∧ (x + -1) % n ≠ (x + 1) % n := by
  have h0 : (x + 0) % n = x := by
    rw [add_zero]
    exact Int.emod_eq_of_lt hx.1 hx.2
  have hprev : (x + -1) % n = if x = 0 then n - 1 else x - 1 := by
    by_cases hx0 : x = 0
    · rw [if_pos hx0, hx0, ← @Int.add_emod_self (0 + -1) n,
        Int.emod_eq_of_lt (by omega) (by omega)]
      ring
    · rw [if_neg hx0]
      exact Int.emod_eq_of_lt (by omega) (by omega)
  have hnext : (x + 1) % n = if x = n - 1 then 0 else x + 1 := by
    by_cases hx1 : x = n - 1
    · rw [if_pos hx1, hx1]
      have e : n - 1 + 1 = n := by ring
      rw [e]
      exact Int.emod_self
    · rw [if_neg hx1]
      exact Int.emod_eq_of_lt (by omega) (by omega)
  rw [hprev, hnext]
  refine ⟨h0, ?_, ?_, ?_⟩ <;> split_ifs <;> omega

/-- C19: toroidal neighbourhoods are proper from size 3 on.  For `ROWS, COLS ≥ 3` and an
in-range cell, the 8 wrapped coordinates read by the continuous `checker` are pairwise distinct
and none is the cell itself; on a 1x1 grid the 8 samples are all the cell itself, which is thus
counted as its own neighbour. -/
theorem Sim.proper_neighbourhood (ROWS COLS r c : Int) (hR : 3 ≤ ROWS) (hC : 3 ≤ COLS)
    (hr : 0 ≤ r ∧ r < ROWS) (hc : 0 ≤ c ∧ c < COLS) :
    (Sim.neighborReads ROWS COLS r c).Nodup ∧
    (r, c) ∉ Sim.neighborReads ROWS COLS r c ∧
    (Sim.neighborReads ROWS COLS r c).length = 8 ∧
    Sim.neighborReads 1 1 0 0 = List.replicate 8 ((0, 0) : Int × Int) ∧
    ((0, 0) : Int × Int) ∈ Sim.neighborReads 1 1 0 0 := by
  obtain ⟨r0, r1, r2, r3⟩ := Sim.wrap_distinct ROWS r hR hr
  obtain ⟨c0, c1, c2, c3⟩ := Sim.wrap_distinct COLS c hC hc
  have ht := Sim.neighborReads_eq_torus ROWS COLS r c hr hc
  rw [ht]
  simp only [Sim.torusNeighbours, Sim.offsets, List.map_cons, List.map_nil, r0, c0]
  generalize (r + -1) % ROWS = a at r1 r3
  generalize (r + 1) % ROWS = b at r2 r3
  generalize (c + -1) % COLS = a' at c1 c3
  generalize (c + 1) % COLS = b' at c2 c3
  refine ⟨?_, ?_, rfl, by decide, by decide⟩
  · simp only [List.nodup_cons, List.mem_cons, List.mem_singleton, Prod.mk.injEq,
      List.not_mem_nil, List.nodup_nil, not_false_eq_true, and_true, or_false, not_or]
    omega
  · simp only [List.mem_cons, List.mem_singleton, Prod.mk.injEq, List.not_mem_nil, or_false,
      not_or]
    omega

/-- Witness of C19: the reads of a corner of a 3x3 grid are distinct and leave the corner out. -/
theorem Sim.proper_neighbourhood_witness :
    (Sim.neighborReads 3 3 0 0).Nodup ∧ ((0, 0) : Int × Int) ∉ Sim.neighborReads 3 3 0 0 :=
  ⟨(Sim.proper_neighbourhood 3 3 0 0 (by decide) (by decide) (by decide) (by decide)).1,
   (Sim.proper_neighbourhood 3 3 0 0 (by decide) (by decide) (by decide) (by decide)).2.1⟩

/-! ## Rounding to a binary format -/

theorem roundEven_intCast (m : Int) : roundEven (m : ℚ) = m := by
  simp [roundEven]

theorem roundEven_bounds (v : ℚ) :
    Int.floor v ≤ roundEven v ∧ roundEven v ≤ Int.floor v + 1 := by
  unfold roundEven
  split_ifs <;> omega

theorem roundEven_eq_of_near (v : ℚ) (m : Int) (h1 : (m : ℚ) - 1 / 2 < v)
    (h2 : v < (m : ℚ) + 1 / 2) : roundEven v = m := by
  by_cases hv : (m : ℚ) ≤ v
  · have hf : Int.floor v = m := Int.floor_eq_iff.2 ⟨hv, by linarith⟩
    unfold roundEven
    rw [hf, if_pos (by linarith)]
  · have hf : Int.floor v = m - 1 := by
      apply Int.floor_eq_iff.2
      push_cast
      constructor <;> linarith
    unfold roundEven
    rw [hf]
    have e : ((m - 1 : Int) : ℚ) = (m : ℚ) - 1 := by push_cast; ring
    rw [if_neg (by rw [e]; linarith), if_pos (by rw [e]; linarith)]
    ring

theorem roundEven_mono (v w : ℚ) (h : v ≤ w) : roundEven v ≤ roundEven w := by
  have hfl : Int.floor v ≤ Int.floor w := Int.floor_mono h
  rcases lt_or_eq_of_le hfl with hlt | heq
  · have b1 := (roundEven_bounds v).2
    have b2 := (roundEven_bounds w).1
    omega
  · unfold roundEven
    rw [← heq]
    split_ifs <;> first | omega | (exfalso; linarith)

theorem two_zpow_pos (e : Int) : (0 : ℚ) < (2 : ℚ) ^ e := zpow_pos (by norm_num) e

theorem roundBinary_zero (t : Nat) (emin : Int) : roundBinary t emin 0 = 0 := by
  simp [roundBinary, roundEven]

theorem roundBinary_nonneg (t : Nat) (emin : Int) (q : ℚ) (hq : 0 ≤ q) :
    0 ≤ roundBinary t emin q := by
  unfold roundBinary
  have hv : 0 ≤ q / (2 : ℚ) ^ (max (Int.log 2 |q|) emin - (t : Int)) :=
    div_nonneg hq (two_zpow_pos _).le
  have hr : (0 : Int) ≤ roundEven (q / (2 : ℚ) ^ (max (Int.log 2 |q|) emin - (t : Int))) := by
    have := roundEven_mono 0 _ hv
    have e0 : roundEven 0 = 0 := by simpa using roundEven_intCast 0
    rwa [e0] at this
  exact mul_nonneg (by exact_mod_cast hr) (two_zpow_pos _).le

/-- The rounding of a positive value whose binade and nearest multiple are known. -/
theorem roundBinary_eval (t : Nat) (emin : Int) (q : ℚ) (e m : Int) (hq : 0 < q)
    (h1 : (2 : ℚ) ^ e ≤ q) (h2 : q < (2 : ℚ) ^ (e + 1)) (he : emin ≤ e)
    (hm1 : (m : ℚ) - 1 / 2 < q / (2 : ℚ) ^ (e - (t : Int)))
    (hm2 : q / (2 : ℚ) ^ (e - (t : Int)) < (m : ℚ) + 1 / 2) :
    roundBinary t emin q = (m : ℚ) * (2 : ℚ) ^ (e - (t : Int)) := by
  have hlog : Int.log 2 |q| = e := by
    rw [abs_of_pos hq]
    apply le_antisymm
    · have := (@Int.lt_zpow_iff_log_lt ℚ _ _ 2 (by norm_num) (e + 1) q hq).1 (by exact_mod_cast h2)
      omega
    · exact (@Int.zpow_le_iff_le_log ℚ _ _ 2 (by norm_num) e q hq).1
        (by exact_mod_cast h1)
  unfold roundBinary
  rw [hlog, max_eq_left he, roundEven_eq_of_near _ m hm1 hm2]

theorem two_zpow_natCast (n : Nat) : (2 : ℚ) ^ (n : Int) = (((2 : Int) ^ n : Int) : ℚ) := by
  rw [zpow_natCast]
  push_cast
  rfl

/-- A positive value lies below the upper end of its binade. -/
theorem binade_upper (emin : Int) (q : ℚ) (hq : 0 < q) :
    q < (2 : ℚ) ^ (max (Int.log 2 |q|) emin + 1) := by
  rw [abs_of_pos hq]
  have h := @Int.lt_zpow_succ_log_self ℚ _ _ 2 (by norm_num) q
  have hle : Int.log 2 q + 1 ≤ max (Int.log 2 q) emin + 1 := by
    have := le_max_left (Int.log 2 q) emin
    omega
  have hmono : (2 : ℚ) ^ (Int.log 2 q + 1) ≤ (2 : ℚ) ^ (max (Int.log 2 q) emin + 1) :=
    zpow_le_zpow_right₀ (by norm_num) hle
  exact lt_of_lt_of_le (by exact_mod_cast h) hmono

theorem roundBinary_le_binade (t : Nat) (emin : Int) (q : ℚ) (hq : 0 < q) :
    roundBinary t emin q ≤ (2 : ℚ) ^ (max (Int.log 2 |q|) emin + 1) := by
  have hup := binade_upper emin q hq
  unfold roundBinary
  generalize max (Int.log 2 |q|) emin = e at hup ⊢
  have hu := two_zpow_pos (e - (t : Int))
  have hv : q / (2 : ℚ) ^ (e - (t : Int)) ≤ (((2 : Int) ^ (t + 1) : Int) : ℚ) := by
    rw [div_le_iff₀ hu, ← two_zpow_natCast, ← zpow_add₀ (by norm_num : (2 : ℚ) ≠ 0)]
    have e1 : ((t + 1 : Nat) : Int) + (e - (t : Int)) = e + 1 := by push_cast; ring
    rw [e1]
    exact hup.le
  have hr := roundEven_mono _ _ hv
  rw [roundEven_intCast] at hr
  have hr' : (roundEven (q / (2 : ℚ) ^ (e - (t : Int))) : ℚ)
      ≤ (((2 : Int) ^ (t + 1) : Int) : ℚ) := by
    exact_mod_cast hr
  calc (roundEven (q / (2 : ℚ) ^ (e - (t : Int))) : ℚ) * (2 : ℚ) ^ (e - (t : Int))
      ≤ (((2 : Int) ^ (t + 1) : Int) : ℚ) * (2 : ℚ) ^ (e - (t : Int)) :=
        mul_le_mul_of_nonneg_right hr' hu.le
    _ = (2 : ℚ) ^ (e + 1) := by
        rw [← two_zpow_natCast, ← zpow_add₀ (by norm_num : (2 : ℚ) ≠ 0)]
        congr 1
        push_cast
        ring

theorem binade_le_roundBinary (t : Nat) (emin : Int) (q : ℚ) (hq : 0 < q)
    (hlog : emin ≤ Int.log 2 |q|) :
    (2 : ℚ) ^ (max (Int.log 2 |q|) emin) ≤ roundBinary t emin q := by
  have hlow : (2 : ℚ) ^ (Int.log 2 |q|) ≤ q := by
    rw [abs_of_pos hq]
    exact_mod_cast @Int.zpow_log_le_self ℚ _ _ 2 q (by norm_num) hq
  unfold roundBinary
  rw [max_eq_left hlog]
  generalize Int.log 2 |q| = e at hlow ⊢
  have hu := two_zpow_pos (e - (t : Int))
  have hv : (((2 : Int) ^ t : Int) : ℚ) ≤ q / (2 : ℚ) ^ (e - (t : Int)) := by
    rw [le_div_iff₀ hu, ← two_zpow_natCast, ← zpow_add₀ (by norm_num : (2 : ℚ) ≠ 0)]
    have e1 : (t : Int) + (e - (t : Int)) = e := by ring
    rw [e1]
    exact hlow
  have hr := roundEven_mono _ _ hv
  rw [roundEven_intCast] at hr
  have hr' : (((2 : Int) ^ t : Int) : ℚ)
      ≤ (roundEven (q / (2 : ℚ) ^ (e - (t : Int))) : ℚ) := by
    exact_mod_cast hr
  calc (2 : ℚ) ^ e = (((2 : Int) ^ t : Int) : ℚ) * (2 : ℚ) ^ (e - (t : Int)) := by
        rw [← two_zpow_natCast, ← zpow_add₀ (by norm_num : (2 : ℚ) ≠ 0)]
        congr 1
        ring
    _ ≤ (roundEven (q / (2 : ℚ) ^ (e - (t : Int))) : ℚ) * (2 : ℚ) ^ (e - (t : Int)) :=
        mul_le_mul_of_nonneg_right hr' hu.le

/-- Rounding is monotone on the non-negative rationals. -/
theorem roundBinary_mono (t : Nat) (emin : Int) (q1 q2 : ℚ) (h0 : 0 ≤ q1) (h : q1 ≤ q2) :
    roundBinary t emin q1 ≤ roundBinary t emin q2 := by
  rcases eq_or_lt_of_le h0 with hz | hpos
  · rw [← hz, roundBinary_zero]
    exact roundBinary_nonneg t emin q2 (le_trans h0 h)
  · have hpos2 : 0 < q2 := lt_of_lt_of_le hpos h
    have hlog : Int.log 2 |q1| ≤ Int.log 2 |q2| := by
      rw [abs_of_pos hpos, abs_of_pos hpos2]
      exact Int.log_mono_right hpos h
    have hmax : max (Int.log 2 |q1|) emin ≤ max (Int.log 2 |q2|) emin :=
      max_le_max hlog (le_refl _)
    rcases lt_or_eq_of_le hmax with hlt | heq
    · have hl2 : emin ≤ Int.log 2 |q2| := by
        by_contra hcon
        have e2 : max (Int.log 2 |q2|) emin = emin := max_eq_right (by omega)
        have := le_max_right (Int.log 2 |q1|) emin
        omega
      have a1 := roundBinary_le_binade t emin q1 hpos
      have a2 := binade_le_roundBinary t emin q2 hpos2 hl2
      have a3 : (2 : ℚ) ^ (max (Int.log 2 |q1|) emin + 1)
          ≤ (2 : ℚ) ^ (max (Int.log 2 |q2|) emin) :=
        zpow_le_zpow_right₀ (by norm_num) (by omega)
      exact le_trans a1 (le_trans a3 a2)
    · unfold roundBinary
      rw [heq]
      have hu := two_zpow_pos (max (Int.log 2 |q2|) emin - (t : Int))
      have hv : q1 / (2 : ℚ) ^ (max (Int.log 2 |q2|) emin - (t : Int))
          ≤ q2 / (2 : ℚ) ^ (max (Int.log 2 |q2|) emin - (t : Int)) :=
        div_le_div_of_nonneg_right h hu.le
      have hr := roundEven_mono _ _ hv
      exact mul_le_mul_of_nonneg_right (by exact_mod_cast hr) hu.le

/-- The binary32 rounding of a positive value whose binade and nearest multiple are known. -/
theorem f32_eval (q r : ℚ) (e m : Int) (hq : 0 < q) (h1 : (2 : ℚ) ^ e ≤ q)
    (h2 : q < (2 : ℚ) ^ (e + 1)) (he : -126 ≤ e)
    (hm1 : (m : ℚ) - 1 / 2 < q / (2 : ℚ) ^ (e - ((23 : Nat) : Int)))
    (hm2 : q / (2 : ℚ) ^ (e - ((23 : Nat) : Int)) < (m : ℚ) + 1 / 2)
    (hr : (m : ℚ) * (2 : ℚ) ^ (e - ((23 : Nat) : Int)) = r) : f32 q = r := by
  rw [f32, roundBinary_eval 23 (-126) q e m hq h1 h2 he hm1 hm2, hr]

/-- The binary64 rounding of a positive value whose binade and nearest multiple are known. -/
theorem f64_eval (q r : ℚ) (e m : Int) (hq : 0 < q) (h1 : (2 : ℚ) ^ e ≤ q)
    (h2 : q < (2 : ℚ) ^ (e + 1)) (he : -1022 ≤ e)
    (hm1 : (m : ℚ) - 1 / 2 < q / (2 : ℚ) ^ (e - ((52 : Nat) : Int)))
    (hm2 : q / (2 : ℚ) ^ (e - ((52 : Nat) : Int)) < (m : ℚ) + 1 / 2)
    (hr : (m : ℚ) * (2 : ℚ) ^ (e - ((52 : Nat) : Int)) = r) : f64 q = r := by
  rw [f64, roundBinary_eval 52 (-1022) q e m hq h1 h2 he hm1 hm2, hr]

theorem f32_zero : f32 0 = 0 := roundBinary_zero 23 (-126)

theorem f32_one : f32 1 = 1 :=
  f32_eval 1 1 0 8388608 (by norm_num) (by norm_num) (by norm_num) (by norm_num)
    (by norm_num) (by norm_num) (by norm_num)

theorem f32_mono (q1 q2 : ℚ) (h0 : 0 ≤ q1) (h : q1 ≤ q2) : f32 q1 ≤ f32 q2 :=
  roundBinary_mono 23 (-126) q1 q2 h0 h

theorem f32_nonneg (q : ℚ) (hq : 0 ≤ q) : 0 ≤ f32 q :=
  roundBinary_nonneg 23 (-126) q hq

/-- The binary32 value of the literal `0.08`, which is a `double` converted to `float`. -/
theorem promotion_rate_value : f32 (f64 0.08) = 10737418 / 134217728 := by
  have h64 : f64 0.08 = 5764607523034235 / 72057594037927936 :=
    f64_eval _ _ (-4) 5764607523034235 (by norm_num) (by norm_num) (by norm_num)
      (by norm_num) (by norm_num) (by norm_num) (by norm_num)
  rw [h64]
  exact f32_eval _ _ (-4) 10737418 (by norm_num) (by norm_num) (by norm_num) (by norm_num)
    (by norm_num) (by norm_num) (by norm_num)

/-- The binary32 value of the literal `0.0001`, which is a `double` converted to `float`. -/
theorem epsilon_value : f32 (f64 0.0001) = 13743895 / 137438953472 := by
  have h64 : f64 0.0001 = 7378697629483821 / 73786976294838206464 :=
    f64_eval _ _ (-14) 7378697629483821 (by norm_num) (by norm_num) (by norm_num)
      (by norm_num) (by norm_num) (by norm_num) (by norm_num)
  rw [h64]
  exact f32_eval _ _ (-14) 13743895 (by norm_num) (by norm_num) (by norm_num) (by norm_num)
    (by norm_num) (by norm_num) (by norm_num)

/-! ## The continuous rule in binary32 -/

/-- The draw `(float)rand() / RAND_MAX` lies in the closed interval from 0 to 1. -/
theorem Sim.draw32_range (RAND_MAX x : Int) (hmax : 0 < RAND_MAX) (hx : 0 ≤ x ∧ x ≤ RAND_MAX) :
    0 ≤ Sim.draw32 RAND_MAX x ∧ Sim.draw32 RAND_MAX x ≤ 1 := by
  have h1 : (1 : ℚ) ≤ (RAND_MAX : ℚ) := by exact_mod_cast hmax
  have h2 : (0 : ℚ) ≤ (x : ℚ) := by exact_mod_cast hx.1
  have h3 : (x : ℚ) ≤ (RAND_MAX : ℚ) := by exact_mod_cast hx.2
  have hR : 1 ≤ f32 (RAND_MAX : ℚ) := by
    have := f32_mono 1 (RAND_MAX : ℚ) (by norm_num) h1
    rwa [f32_one] at this
  have hx0 : 0 ≤ f32 (x : ℚ) := f32_nonneg _ h2
  have hxR : f32 (x : ℚ) ≤ f32 (RAND_MAX : ℚ) := f32_mono _ _ h2 h3
  have hpos : (0 : ℚ) < f32 (RAND_MAX : ℚ) := by linarith
  have hq0 : 0 ≤ f32 (x : ℚ) / f32 (RAND_MAX : ℚ) := div_nonneg hx0 hpos.le
  have hq1 : f32 (x : ℚ) / f32 (RAND_MAX : ℚ) ≤ 1 := (div_le_one hpos).2 hxR
  unfold Sim.draw32
  refine ⟨f32_nonneg _ hq0, ?_⟩
  have := f32_mono _ 1 hq0 hq1
  rwa [f32_one] at this

/-- The value of `RAND_MAX = 2147483647` converted to `float` is `2 ^ 31`. -/
theorem f32_rand_max : f32 2147483647 = 2147483648 :=
  f32_eval _ _ 30 16777216 (by norm_num) (by norm_num) (by norm_num) (by norm_num)
    (by norm_num) (by norm_num) (by norm_num)

theorem Sim.draw32_max : Sim.draw32 2147483647 2147483647 = 1 := by
  unfold Sim.draw32
  simp only [Int.cast_ofNat]
  rw [f32_rand_max]
  norm_num [f32_one]

theorem Sim.draw32_zero : Sim.draw32 2147483647 0 = 0 := by
  unfold Sim.draw32
  simp [f32_zero]

theorem Sim.draw32_threshold : Sim.draw32 2147483647 171798688 = 10737418 / 134217728 := by
  have hx : f32 171798688 = 171798688 :=
    f32_eval _ _ 27 10737418 (by norm_num) (by norm_num) (by norm_num) (by norm_num)
      (by norm_num) (by norm_num) (by norm_num)
  unfold Sim.draw32
  simp only [Int.cast_ofNat]
  rw [f32_rand_max, hx]
  exact f32_eval _ _ (-4) 10737418 (by norm_num) (by norm_num) (by norm_num) (by norm_num)
    (by norm_num) (by norm_num) (by norm_num)

/-- The result of the binary32 `checker`, by cases on its two draws. -/
theorem Sim.transition32_fst (RAND_MAX : Int) (current : State) (transition_prob : ℚ)
    (g : Rng) :
    (Sim.transition32 RAND_MAX current transition_prob g).1 =
      if Sim.draw32 RAND_MAX (g.seq g.pos : Nat) < transition_prob then
        if current = .ADDICT ∨ current = .CONVERTER then
          if Sim.draw32 RAND_MAX (g.seq (g.pos + 1) : Nat) < f32 (f64 0.08) then .RECOVERER
          else .NORMAL
        else
          if Sim.draw32 RAND_MAX (g.seq (g.pos + 1) : Nat) < f32 (f64 0.08) then .CONVERTER
          else .ADDICT
      else current := by
  simp only [Sim.transition32, rand, Sim.isAddictType, Bool.or_eq_true, beq_iff_eq]
  split_ifs <;> rfl

/-- C14, as amended: for a value `x` that `rand()` can return (`0 ≤ x ≤ RAND_MAX`) the draw
`u = (float)x / RAND_MAX` that `checker` computes in binary32 lies in the closed interval from
0 to 1; likewise for the promotion draw, which is the same expression on the next value. -/
theorem Sim.draw_in_closed_interval (RAND_MAX x : Int) (hmax : 0 < RAND_MAX)
    (hx : 0 ≤ x ∧ x ≤ RAND_MAX) :
    0 ≤ Sim.draw32 RAND_MAX x ∧ Sim.draw32 RAND_MAX x ≤ 1 ∧
    (∀ (current : State) (transition_prob : ℚ) (g : Rng),
      (Sim.transition32 RAND_MAX current transition_prob g).1 =
        if Sim.draw32 RAND_MAX (g.seq g.pos : Nat) < transition_prob then
          if current = .ADDICT ∨ current = .CONVERTER then
            if Sim.draw32 RAND_MAX (g.seq (g.pos + 1) : Nat) < f32 (f64 0.08) then .RECOVERER
            else .NORMAL
          else
            if Sim.draw32 RAND_MAX (g.seq (g.pos + 1) : Nat) < f32 (f64 0.08) then .CONVERTER
            else .ADDICT
        else current) :=
  ⟨(Sim.draw32_range RAND_MAX x hmax hx).1, (Sim.draw32_range RAND_MAX x hmax hx).2,
    fun current transition_prob g => Sim.transition32_fst RAND_MAX current transition_prob g⟩

/-- Witness of C14 as amended: the draw for `x = 16384` with `RAND_MAX = 32767`. -/
theorem Sim.draw_in_closed_interval_witness :
    0 ≤ Sim.draw32 32767 16384 ∧ Sim.draw32 32767 16384 ≤ 1 :=
  ⟨(Sim.draw_in_closed_interval 32767 16384 (by decide) (by decide)).1,
   (Sim.draw_in_closed_interval 32767 16384 (by decide) (by decide)).2.1⟩

/-- Counterexample to C14 as stated: for `x = RAND_MAX = 2147483647` the draw is 1, which is not
below 1, so the draws do not all lie in the half-open interval. -/
theorem Sim.draw_reaches_one :
    Sim.draw32 2147483647 2147483647 = 1 ∧
    ¬ (∀ RAND_MAX x : Int, 0 < RAND_MAX → 0 ≤ x → x ≤ RAND_MAX →
        0 ≤ Sim.draw32 RAND_MAX x ∧ Sim.draw32 RAND_MAX x < 1) := by
  refine ⟨Sim.draw32_max, fun h => ?_⟩
  have h2 := (h 2147483647 2147483647 (by decide) (by decide) (by decide)).2
  rw [Sim.draw32_max] at h2
  exact lt_irrefl _ h2

/-- The binary32 values of the small pressures: the integers 2 to 8 are binary32 numbers. -/
theorem f32_small :
    f32 2 = 2 ∧ f32 3 = 3 ∧ f32 4 = 4 ∧ f32 5 = 5 ∧ f32 6 = 6 ∧ f32 7 = 7 ∧ f32 8 = 8 :=
  ⟨f32_eval _ _ 1 8388608 (by norm_num) (by norm_num) (by norm_num) (by norm_num)
      (by norm_num) (by norm_num) (by norm_num),
   f32_eval _ _ 1 12582912 (by norm_num) (by norm_num) (by norm_num) (by norm_num)
      (by norm_num) (by norm_num) (by norm_num),
   f32_eval _ _ 2 8388608 (by norm_num) (by norm_num) (by norm_num) (by norm_num)
      (by norm_num) (by norm_num) (by norm_num),
   f32_eval _ _ 2 10485760 (by norm_num) (by norm_num) (by norm_num) (by norm_num)
      (by norm_num) (by norm_num) (by norm_num),
   f32_eval _ _ 2 12582912 (by norm_num) (by norm_num) (by norm_num) (by norm_num)
      (by norm_num) (by norm_num) (by norm_num),
   f32_eval _ _ 2 14680064 (by norm_num) (by norm_num) (by norm_num) (by norm_num)
      (by norm_num) (by norm_num) (by norm_num),
   f32_eval _ _ 3 8388608 (by norm_num) (by norm_num) (by norm_num) (by norm_num)
      (by norm_num) (by norm_num) (by norm_num)⟩

/-- The binary32 pressures at the centre of the sample grid `addictRing`: 8 `Addict`
neighbours. -/
theorem Sim.pressures32_addictRing : Sim.pressures32 3 3 addictRing 1 1 = ⟨8, 0⟩ := by
  have t1 : Int.tmod (1 + 1 + 3) 3 = 2 := by decide
  have t2 : Int.tmod (1 + 0 + 3) 3 = 1 := by decide
  have t3 : Int.tmod (1 + -1 + 3) 3 = 0 := by decide
  obtain ⟨f2, f3, f4, f5, f6, f7, f8⟩ := f32_small
  rw [Sim.pressures32, Sim.eachNeighbor_unroll]
  simp only [t1, t2, t3]
  norm_num [Sim.addPressure32, addictRing, Sim.isAddictType, Sim.getInfluence, f32_one, f2, f3,
    f4, f5, f6, f7, f8]

/-- The binary32 transition probability at the centre of the sample grid `addictRing`. -/
theorem Sim.transitionProb32_addictRing :
    Sim.transitionProb32 3 3 addictRing 1 1 = 8388503 / 8388608 := by
  have htot : Sim.totalPressure32 3 3 addictRing 1 1 = 8388713 / 1048576 := by
    rw [Sim.totalPressure32, Sim.pressures32_addictRing]
    simp only [add_zero, f32_small.2.2.2.2.2.2, epsilon_value]
    exact f32_eval _ _ 3 8388713 (by norm_num) (by norm_num) (by norm_num) (by norm_num)
      (by norm_num) (by norm_num) (by norm_num)
  have hcur : Sim.isAddictType (addictRing 1 1) = false := by decide
  rw [Sim.transitionProb32, htot, Sim.pressures32_addictRing]
  simp only [hcur, Bool.false_eq_true, if_false]
  exact f32_eval _ _ (-1) 16777006 (by norm_num) (by norm_num) (by norm_num) (by norm_num)
    (by norm_num) (by norm_num) (by norm_num)

/-- C4, as amended: the outcome of the continuous rule in binary32.  With `u` and `p` the two
draws that `checker` computes, the result is the current state when `u ≥ transition_prob`;
otherwise an `Addict` or `Converter` cell becomes `Recoverer` when `p` is below the binary32
value `10737418 / 2 ^ 27` of `promotion_rate` and `Normal` otherwise, and a `Normal` or
`Recoverer` cell becomes `Converter` when `p` is below that value and `Addict` otherwise.  So the
result is the current state or a state of the other category. -/
theorem Sim.continuous_outcome_binary32 (RAND_MAX : Int) (current : State)
    (transition_prob : ℚ) (g : Rng) :
    (Sim.transition32 RAND_MAX current transition_prob g).1 =
      (if Sim.draw32 RAND_MAX (g.seq g.pos : Nat) ≥ transition_prob then current
       else if current = .ADDICT ∨ current = .CONVERTER then
          (if Sim.draw32 RAND_MAX (g.seq (g.pos + 1) : Nat) < 10737418 / 134217728
            then .RECOVERER else .NORMAL)
       else
          (if Sim.draw32 RAND_MAX (g.seq (g.pos + 1) : Nat) < 10737418 / 134217728
            then .CONVERTER else .ADDICT)) ∧
    ((Sim.transition32 RAND_MAX current transition_prob g).1 = current ∨
      Sim.isAddictType (Sim.transition32 RAND_MAX current transition_prob g).1
        ≠ Sim.isAddictType current) ∧
    f32 (f64 0.08) = 10737418 / 134217728 ∧
    (∀ (ROWS COLS : Int) (grid : Grid) (r c : Int),
      Sim.checker32 RAND_MAX ROWS COLS grid r c g =
        Sim.transition32 RAND_MAX (grid r c) (Sim.transitionProb32 ROWS COLS grid r c) g) := by
  refine ⟨?_, ?_, promotion_rate_value, fun _ _ _ _ _ => rfl⟩
  · rw [Sim.transition32_fst, promotion_rate_value]
    by_cases h : Sim.draw32 RAND_MAX (g.seq g.pos : Nat) < transition_prob
    · rw [if_pos h, if_neg (not_le.2 h)]
    · rw [if_neg h, if_pos (not_lt.1 h)]
  · rw [Sim.transition32_fst]
    cases current <;> split_ifs <;> simp_all [Sim.isAddictType]

/-- Counterexample to C4 as stated: on the sample grid `addictRing` with
`RAND_MAX = 2147483647` and the draws 0 and 171798688, the first draw `u = 0` is below the
transition probability and the second draw `p = 10737418 / 2 ^ 27` is below 0.08, yet the
`Normal` centre becomes `Addict`, not `Converter`: `p` is not below the binary32 value of
`promotion_rate`. -/
theorem Sim.promotion_threshold_counterexample :
    (Sim.checker32 2147483647 3 3 addictRing 1 1 ⟨thresholdDraws, 0⟩).1 = .ADDICT ∧
    addictRing 1 1 = .NORMAL ∧
    ¬ (Sim.draw32 2147483647 (thresholdDraws 0 : Nat)
        ≥ Sim.transitionProb32 3 3 addictRing 1 1) ∧
    Sim.draw32 2147483647 (thresholdDraws 1 : Nat) < 8 / 100 := by
  have hu : Sim.draw32 2147483647 ((thresholdDraws 0 : Nat) : Int) = 0 := by
    simpa [thresholdDraws] using Sim.draw32_zero
  have hp : Sim.draw32 2147483647 ((thresholdDraws 1 : Nat) : Int) = 10737418 / 134217728 := by
    simpa [thresholdDraws] using Sim.draw32_threshold
  refine ⟨?_, by decide, ?_, ?_⟩
  · rw [Sim.checker32, Sim.transition32_fst, Sim.transitionProb32_addictRing,
      promotion_rate_value]
    simp only [zero_add]
    rw [hu, hp]
    have hcur : addictRing 1 1 = State.NORMAL := by decide
    rw [hcur]
    norm_num
    decide
  · rw [hu, Sim.transitionProb32_addictRing]
    norm_num
  · rw [hp]
    norm_num
